import Mathlib

/-!
Verification development for the diffx range parser and ref resolvers.

The definitions below are shallow embeddings of the TypeScript source:
string matchers are translated to structurally recursive functions on
`List Char`, and the asynchronous resolvers are translated to functions
threading an explicit git-client state (`GitState`) against an oracle
(`GitEnv`) that supplies the reply to each git plumbing call in order.
-/

namespace Diffx

/-! ## String utilities (JS-faithful primitives) -/

/-- Whether the first list is a prefix of the second (Bool version). -/
def isPrefixList : List Char → List Char → Bool
  | [], _ => true
  | _ :: _, [] => false
  | a :: as, b :: bs => a == b && isPrefixList as bs

/-- Consume an exact literal from the front, case-sensitively. -/
def dropLit : List Char → List Char → Option (List Char)
  | [], s => some s
  | _ :: _, [] => none
  | a :: as, b :: bs => if a == b then dropLit as bs else none

/-- Consume an exact literal from the front, case-insensitively
(models a JS regex literal under the `i` flag, ASCII case folding). -/
def dropLitCI : List Char → List Char → Option (List Char)
  | [], s => some s
  | _ :: _, [] => none
  | a :: as, b :: bs => if a.toLower == b.toLower then dropLitCI as bs else none

/-- Index of the first occurrence of `sep` (JS `String.prototype.indexOf`). -/
def firstIdxAux (sep : List Char) : List Char → Nat → Option Nat
  | [], i => if isPrefixList sep [] then some i else none
  | c :: rest, i =>
    if isPrefixList sep (c :: rest) then some i else firstIdxAux sep rest (i + 1)

def firstIdx (sep s : List Char) : Option Nat := firstIdxAux sep s 0

/-- JS `String.prototype.includes`. -/
def containsStr (s pat : String) : Bool := (firstIdx pat.data s.data).isSome

/-- Index of the last occurrence of a character, scanning left to right. -/
def lastIdxCharAux (c : Char) : List Char → Nat → Option Nat → Option Nat
  | [], _, best => best
  | d :: rest, i, best => lastIdxCharAux c rest (i + 1) (if d == c then some i else best)

def lastIdxChar (c : Char) (s : List Char) : Option Nat := lastIdxCharAux c s 0 none

/-- JS `String.prototype.lastIndexOf(char, position)`: the last index `k ≤ position`
holding `char`; a negative `position` is clamped to 0. -/
def jsLastIndexOfChar (s : String) (c : Char) (pos : Int) : Option Nat :=
  lastIdxChar c (s.data.take ((if pos < 0 then 0 else pos.toNat) + 1))

/-- Fuel-driven worker for JS `String.prototype.split` with a literal separator. -/
def splitGo (sep : List Char) : Nat → List Char → List Char → List (List Char)
  | _, [], acc => [acc.reverse]
  | 0, s, acc => [acc.reverse ++ s]
  | fuel + 1, c :: rest, acc =>
    if isPrefixList sep (c :: rest) then
      acc.reverse :: splitGo sep fuel (rest.drop (sep.length - 1)) []
    else
      splitGo sep fuel rest (c :: acc)

/-- JS `s.split(sep)` for a nonempty literal separator. -/
def splitOnStr (sep s : String) : List String :=
  (splitGo sep.data (s.data.length + 1) s.data []).map String.mk

/-- JS whitespace trim (`String.prototype.trim`), ASCII approximation. -/
def trimStr (s : String) : String :=
  String.mk (((s.data.dropWhile Char.isWhitespace).reverse.dropWhile Char.isWhitespace).reverse)

/-- `parseInt(digits, 10)` on a string of decimal digits. -/
def natOfDigits (ds : List Char) : Nat :=
  ds.foldl (fun n c => n * 10 + (c.toNat - 48)) 0

/-- A hex digit under the `i` regex flag: `[a-f0-9]` case-insensitively. -/
def isHexChar (c : Char) : Bool :=
  c.isDigit || ('a' ≤ c && c ≤ 'f') || ('A' ≤ c && c ≤ 'F')

/-- Match `([^stop]+)stop`, returning the captured run and the remainder after
the stop character. Mirrors a greedy negated character class followed by a literal. -/
def seg1 (stopAt : Char) (s : List Char) : Option (List Char × List Char) :=
  match s.span (fun c => c != stopAt) with
  | (pre, _ :: rest) => if pre.isEmpty then none else some (pre, rest)
  | (_, []) => none

/-- Split at the last occurrence of `sep` that leaves a nonempty part on both
sides: the semantics of a greedy `(.+)sep(.+)` anchored match. -/
def lastSplitGo (sep : List Char) : List Char → List Char → Option (List Char × List Char) →
    Option (List Char × List Char)
  | _, [], best => best
  | pre, c :: rest, best =>
    let best' :=
      if !pre.isEmpty && isPrefixList sep (c :: rest) && !((c :: rest).drop sep.length).isEmpty
      then some (pre.reverse, (c :: rest).drop sep.length)
      else best
    lastSplitGo sep (c :: pre) rest best'

def lastSepSplit (sep s : List Char) : Option (List Char × List Char) :=
  lastSplitGo sep [] s none

/-- JS falsiness of an optional string field (`undefined` or `""`). -/
def strFalsy : Option String → Bool
  | none => true
  | some s => s.data.isEmpty

/-! ## Data model (src/types.ts) -/

/-- Exit codes of `ExitCode` in src/types.ts. -/
inductive ExitCode where
  | success
  | noFilesMatched
  | invalidInput
  | gitError
deriving Repr, DecidableEq

/-- The numeric value of each exit code, as in the `ExitCode` const object. -/
def ExitCode.toNat : ExitCode → Nat
  | .success => 0
  | .noFilesMatched => 1
  | .invalidInput => 2
  | .gitError => 3

/-- `DiffxError`: a message plus a structural exit-code tag. -/
structure DiffxError where
  message : String
  exitCode : ExitCode
deriving Repr, DecidableEq

/-- The ten `RefType` tags. -/
inductive RefType where
  | localRange
  | remoteRange
  | prRef
  | githubUrl
  | prRange
  | gitUrlRange
  | githubCommitUrl
  | githubPrChangesUrl
  | githubCompareUrl
  | gitlabMrRef
deriving Repr, DecidableEq

/-- Parsed GitHub PR URL (`GitHubPRUrl` in src/types.ts). -/
structure GitHubPRUrl where
  owner : String
  repo : String
  prNumber : Nat
deriving Repr, DecidableEq

/-- Parsed GitLab MR reference (`GitLabMRUrl` in src/types.ts). -/
structure GitLabMRUrl where
  owner : String
  repo : String
  mrNumber : Nat
deriving Repr, DecidableEq

/-- Parsed GitHub commit URL. -/
structure GitHubCommitUrl where
  owner : String
  repo : String
  commitSha : String
deriving Repr, DecidableEq

/-- Parsed GitHub PR changes URL. -/
structure GitHubPRChangesUrl where
  owner : String
  repo : String
  prNumber : Nat
  leftCommitSha : String
  rightCommitSha : String
deriving Repr, DecidableEq

/-- Parsed GitHub compare URL (cross-fork fields optional). -/
structure GitHubCompareUrl where
  owner : String
  repo : String
  leftRef : String
  rightRef : String
  rightOwner : Option String := none
  rightRepo : Option String := none
deriving Repr, DecidableEq

/-- Result of `parseGithubRefRange` / `parseGitlabRefRange`. -/
structure ShorthandRefRange where
  ownerRepo : String
  left : String
  right : String
deriving Repr, DecidableEq

/-- Result of `parseGitUrlRange`. -/
structure GitUrlRangeParts where
  leftUrl : String
  leftRef : String
  rightUrl : String
  rightRef : String
deriving Repr, DecidableEq

/-- One side of a remote shorthand range, parsed by the nested
`parseRemoteSide` helper of `parseRemoteRefRange`. -/
structure RemoteSide where
  owner : String
  repo : String
  ref : String
deriving Repr, DecidableEq

/-- Result of `parseRemoteRefRange`. -/
structure RemoteRangeParts where
  left : String
  right : String
  ownerRepo : String
deriving Repr, DecidableEq

/-- Result of `parseLocalRefRange`. -/
structure LocalRangeParts where
  left : String
  right : String
deriving Repr, DecidableEq

/-- The `RefRange` tagged record; fields of other variants stay `none`. -/
structure RefRange where
  type : RefType
  left : String
  right : String
  ownerRepo : Option String := none
  prNumber : Option Nat := none
  leftPr : Option GitHubPRUrl := none
  rightPr : Option GitHubPRUrl := none
  leftGitUrl : Option String := none
  rightGitUrl : Option String := none
  commitSha : Option String := none
  leftCommitSha : Option String := none
  rightCommitSha : Option String := none
  leftRef : Option String := none
  rightRef : Option String := none
  rightOwner : Option String := none
  rightRepo : Option String := none
deriving Repr, DecidableEq

/-! ## Format matchers (src/parsers/range/) -/

/-- `parseGitHubPRUrl`: regex
`^https?://github.com/([^/]+)/([^/]+)/pull/(digits)(/.*)?$` case-insensitively. -/
def parseGitHubPRUrl (input : String) : Option GitHubPRUrl :=
  match (dropLitCI "https://github.com/".data input.data).orElse
      (fun _ => dropLitCI "http://github.com/".data input.data) with
  | none => none
  | some s1 =>
    match seg1 '/' s1 with
    | none => none
    | some (ownerCs, s2) =>
      match seg1 '/' s2 with
      | none => none
      | some (repoCs, s3) =>
        match dropLitCI "pull/".data s3 with
        | none => none
        | some s4 =>
          match s4.span Char.isDigit with
          | (ds, rest) =>
            if ds.isEmpty then none
            else
              match rest with
              | [] => some ⟨String.mk ownerCs, String.mk repoCs, natOfDigits ds⟩
              | '/' :: _ => some ⟨String.mk ownerCs, String.mk repoCs, natOfDigits ds⟩
              | _ => none

/-- `parseGitHubCommitUrl`: regex
`^https?://github.com/([^/]+)/([^/]+)/commit/([a-f0-9]+)$` case-insensitively. -/
def parseGitHubCommitUrl (input : String) : Option GitHubCommitUrl :=
  match (dropLitCI "https://github.com/".data input.data).orElse
      (fun _ => dropLitCI "http://github.com/".data input.data) with
  | none => none
  | some s1 =>
    match seg1 '/' s1 with
    | none => none
    | some (ownerCs, s2) =>
      match seg1 '/' s2 with
      | none => none
      | some (repoCs, s3) =>
        match dropLitCI "commit/".data s3 with
        | none => none
        | some s4 =>
          match s4.span isHexChar with
          | (hs, rest) =>
            if hs.isEmpty || !rest.isEmpty then none
            else some ⟨String.mk ownerCs, String.mk repoCs, String.mk hs⟩

/-- `parseGitHubPRChangesUrl`: regex
`^https?://github.com/([^/]+)/([^/]+)/pull/(digits)/changes/([a-f0-9]+)..([a-f0-9]+)$`. -/
def parseGitHubPRChangesUrl (input : String) : Option GitHubPRChangesUrl :=
  match (dropLitCI "https://github.com/".data input.data).orElse
      (fun _ => dropLitCI "http://github.com/".data input.data) with
  | none => none
  | some s1 =>
    match seg1 '/' s1 with
    | none => none
    | some (ownerCs, s2) =>
      match seg1 '/' s2 with
      | none => none
      | some (repoCs, s3) =>
        match dropLitCI "pull/".data s3 with
        | none => none
        | some s4 =>
          match s4.span Char.isDigit with
          | (ds, rest) =>
            if ds.isEmpty then none
            else
              match dropLitCI "/changes/".data rest with
              | none => none
              | some s5 =>
                match s5.span isHexChar with
                | (h1, rest1) =>
                  if h1.isEmpty then none
                  else
                    match dropLit "..".data rest1 with
                    | none => none
                    | some h2 =>
                      if h2.isEmpty || !(h2.all isHexChar) then none
                      else
                        some ⟨String.mk ownerCs, String.mk repoCs, natOfDigits ds,
                          String.mk h1, String.mk h2⟩

/-- Cross-fork right side `^([^:]+):([^:]+):(.+)$` of a compare URL. -/
def crossForkColon (r : List Char) : Option (String × String × String) :=
  match seg1 ':' r with
  | none => none
  | some (o1, r1) =>
    match seg1 ':' r1 with
    | none => none
    | some (o2, r2) =>
      if r2.isEmpty then none else some (String.mk o1, String.mk o2, String.mk r2)

/-- Cross-fork right side `^([^:]+):([^/]+)/(.+)$` of a compare URL. -/
def crossForkSlash (r : List Char) : Option (String × String × String) :=
  match seg1 ':' r with
  | none => none
  | some (o1, r1) =>
    match seg1 '/' r1 with
    | none => none
    | some (o2, r2) =>
      if r2.isEmpty then none else some (String.mk o1, String.mk o2, String.mk r2)

/-- `parseGitHubCompareUrl`: regex
`^https?://github.com/([^/]+)/([^/]+)/compare/(.+)...(.+)$` with the two
cross-fork shapes recognised on the right-hand ref. -/
def parseGitHubCompareUrl (input : String) : Option GitHubCompareUrl :=
  match (dropLitCI "https://github.com/".data input.data).orElse
      (fun _ => dropLitCI "http://github.com/".data input.data) with
  | none => none
  | some s1 =>
    match seg1 '/' s1 with
    | none => none
    | some (ownerCs, s2) =>
      match seg1 '/' s2 with
      | none => none
      | some (repoCs, s3) =>
        match dropLitCI "compare/".data s3 with
        | none => none
        | some s4 =>
          match lastSepSplit "...".data s4 with
          | none => none
          | some (l, r) =>
            let owner := String.mk ownerCs
            let repo := String.mk repoCs
            match crossForkColon r with
            | some (ro, rr, rref) =>
              some ⟨owner, repo, String.mk l, rref, some ro, some rr⟩
            | none =>
              match crossForkSlash r with
              | some (ro, rr, rref) =>
                some ⟨owner, repo, String.mk l, rref, some ro, some rr⟩
              | none => some ⟨owner, repo, String.mk l, String.mk r, none, none⟩

/-- `parsePRRef`: regex `^github:([^/]+)/([^/]+)#(digits)$` case-insensitively. -/
def parsePRRef (input : String) : Option GitHubPRUrl :=
  match dropLitCI "github:".data input.data with
  | none => none
  | some s1 =>
    match seg1 '/' s1 with
    | none => none
    | some (ownerCs, rem) =>
      match lastIdxChar '#' rem with
      | none => none
      | some k =>
        let repoCs := rem.take k
        let ds := rem.drop (k + 1)
        if repoCs.isEmpty || ds.isEmpty || !(ds.all Char.isDigit) ||
            !(rem.all (fun c => c != '/')) then none
        else some ⟨String.mk ownerCs, String.mk repoCs, natOfDigits ds⟩

/-- `parseMRRef`: regex `^gitlab:([^/]+)/([^/]+)!(digits)$` case-insensitively. -/
def parseMRRef (input : String) : Option GitLabMRUrl :=
  match dropLitCI "gitlab:".data input.data with
  | none => none
  | some s1 =>
    match seg1 '/' s1 with
    | none => none
    | some (ownerCs, rem) =>
      match lastIdxChar '!' rem with
      | none => none
      | some k =>
        let repoCs := rem.take k
        let ds := rem.drop (k + 1)
        if repoCs.isEmpty || ds.isEmpty || !(ds.all Char.isDigit) ||
            !(rem.all (fun c => c != '/')) then none
        else some ⟨String.mk ownerCs, String.mk repoCs, natOfDigits ds⟩

/-- `parseGithubRefRange`: regex `^github:([^/]+)/([^@]+)@(.+)..(.+)$` with
both captured refs trimmed and required nonempty. -/
def parseGithubRefRange (input : String) : Option ShorthandRefRange :=
  match dropLitCI "github:".data input.data with
  | none => none
  | some s1 =>
    match seg1 '/' s1 with
    | none => none
    | some (ownerCs, s2) =>
      match seg1 '@' s2 with
      | none => none
      | some (repoCs, s3) =>
        match lastSepSplit "..".data s3 with
        | none => none
        | some (l, r) =>
          let owner := String.mk ownerCs
          let repo := String.mk repoCs
          let lt := trimStr (String.mk l)
          let rt := trimStr (String.mk r)
          if owner.data.isEmpty || repo.data.isEmpty || lt.data.isEmpty ||
              rt.data.isEmpty then none
          else some ⟨owner ++ "/" ++ repo, lt, rt⟩

/-- `parseGitlabRefRange`: regex `^gitlab:([^/]+)/([^@]+)@(.+)..(.+)$`. -/
def parseGitlabRefRange (input : String) : Option ShorthandRefRange :=
  match dropLitCI "gitlab:".data input.data with
  | none => none
  | some s1 =>
    match seg1 '/' s1 with
    | none => none
    | some (ownerCs, s2) =>
      match seg1 '@' s2 with
      | none => none
      | some (repoCs, s3) =>
        match lastSepSplit "..".data s3 with
        | none => none
        | some (l, r) =>
          let owner := String.mk ownerCs
          let repo := String.mk repoCs
          let lt := trimStr (String.mk l)
          let rt := trimStr (String.mk r)
          if owner.data.isEmpty || repo.data.isEmpty || lt.data.isEmpty ||
              rt.data.isEmpty then none
          else some ⟨owner ++ "/" ++ repo, lt, rt⟩

/-- `parsePRRange`: split on `..` into exactly two parts; each trimmed side
must parse as a GitHub PR URL or a `github:` PR ref. -/
def parsePRRange (input : String) : Option (GitHubPRUrl × GitHubPRUrl) :=
  if !(containsStr input "..") then none
  else
    match splitOnStr ".." input with
    | [a, b] =>
      match (parseGitHubPRUrl (trimStr a)).orElse (fun _ => parsePRRef (trimStr a)),
          (parseGitHubPRUrl (trimStr b)).orElse (fun _ => parsePRRef (trimStr b)) with
      | some l, some r => some (l, r)
      | _, _ => none
    | _ => none

/-- URL heuristic of `parseGitUrlRange`: contains `://`, or both `@` and `:`. -/
def isGitUrl (s : String) : Bool :=
  containsStr s "://" || (containsStr s "@" && containsStr s ":")

/-- `parseGitUrlRange`: full form `url@ref..url@ref` (split at the last `@` of
each side of the first `..`), else short form `url@left..right` (split at the
last `@` before the first `..`). -/
def parseGitUrlRange (input : String) : Option GitUrlRangeParts :=
  let cs := input.data
  let dd := firstIdx "..".data cs
  let branch1 : Option GitUrlRangeParts :=
    match dd with
    | none => none
    | some i =>
      let leftPart := cs.take i
      let rightPart := cs.drop (i + 2)
      match lastIdxChar '@' leftPart, lastIdxChar '@' rightPart with
      | some la, some ra =>
        let leftUrl := String.mk (leftPart.take la)
        let leftR := String.mk (leftPart.drop (la + 1))
        let rightUrl := String.mk (rightPart.take ra)
        let rightR := String.mk (rightPart.drop (ra + 1))
        if isGitUrl leftUrl && isGitUrl rightUrl then
          some ⟨leftUrl, leftR, rightUrl, rightR⟩
        else none
      | _, _ => none
  match branch1 with
  | some r => some r
  | none =>
    let posJS : Int := match dd with | some i => (i : Int) | none => -1
    match jsLastIndexOfChar input '@' posJS, dd with
    | some ai, some _ =>
      let url := String.mk (cs.take ai)
      let refPart := String.mk (cs.drop (ai + 1))
      match splitOnStr ".." refPart with
      | [p0, p1] =>
        if isGitUrl url then some ⟨url, p0, url, p1⟩ else none
      | _ => none
    | _, _ => none

/-- Nested `parseRemoteSide` helper of `parseRemoteRefRange`: regex
`^([^/]+)/([^@]+)@(.+)$` with all three captures trimmed and required nonempty. -/
def parseRemoteSide (value : String) : Option RemoteSide :=
  match seg1 '/' value.data with
  | none => none
  | some (ownerCs, r1) =>
    match seg1 '@' r1 with
    | none => none
    | some (repoCs, r2) =>
      if r2.isEmpty then none
      else
        let owner := trimStr (String.mk ownerCs)
        let repo := trimStr (String.mk repoCs)
        let ref := trimStr (String.mk r2)
        if owner.data.isEmpty || repo.data.isEmpty || ref.data.isEmpty then none
        else some ⟨owner, repo, ref⟩

/-- `parseRemoteRefRange`: both forms `owner/repo@l..owner/repo@r` (owner and
repo must agree on both sides) and `owner/repo@l..r`. -/
def parseRemoteRefRange (input : String) : Option RemoteRangeParts :=
  match firstIdx "..".data input.data with
  | none => none
  | some i =>
    let leftPart := trimStr (String.mk (input.data.take i))
    let rightPart := trimStr (String.mk (input.data.drop (i + 2)))
    if leftPart.data.isEmpty || rightPart.data.isEmpty then none
    else
      match parseRemoteSide leftPart with
      | none => none
      | some l =>
        match parseRemoteSide rightPart with
        | some rf =>
          if rf.owner != l.owner || rf.repo != l.repo then none
          else
            some ⟨l.owner ++ "/" ++ l.repo ++ "@" ++ l.ref,
              rf.owner ++ "/" ++ rf.repo ++ "@" ++ rf.ref,
              l.owner ++ "/" ++ l.repo⟩
        | none =>
          some ⟨l.owner ++ "/" ++ l.repo ++ "@" ++ l.ref,
            l.owner ++ "/" ++ l.repo ++ "@" ++ rightPart,
            l.owner ++ "/" ++ l.repo⟩

/-- `parseLocalRefRange`: split on `..` into exactly two nonempty parts. -/
def parseLocalRefRange (input : String) : Option LocalRangeParts :=
  match splitOnStr ".." input with
  | [a, b] =>
    if a.data.isEmpty || b.data.isEmpty then none
    else some ⟨trimStr a, trimStr b⟩
  | _ => none

/-! ## Range parser (src/parsers/range-parser.ts) -/

/-- The literal list of supported formats appended to the parse error. -/
def supportedFormatsText : String :=
  "\n\nSupported formats:\n  - Local refs: main..feature, abc123..def456\n  - Remote refs: owner/repo@main..owner/repo@feature\n  - Git URL: git@github.com:owner/repo.git@main..feature\n  - Git URL (HTTPS): https://github.com/owner/repo.git@main..feature\n  - GitHub refs: github:owner/repo@main..feature\n  - GitHub PR ref: github:owner/repo#123\n  - GitHub PR range: github:owner/repo#123..github:owner/repo#456\n  - GitHub PR URL: https://github.com/owner/repo/pull/123\n  - PR URL range: https://github.com/owner/repo/pull/123..https://github.com/owner/repo/pull/456\n  - GitHub commit URL: https://github.com/owner/repo/commit/abc123\n  - GitHub PR changes URL: https://github.com/owner/repo/pull/123/changes/abc123..def456\n  - GitHub compare URL: https://github.com/owner/repo/compare/main...feature\n  - Cross-fork compare: https://github.com/owner/repo/compare/main...other:repo:feature\n  - GitLab refs: gitlab:owner/repo@main..feature\n  - GitLab MR ref: gitlab:owner/repo!123"

/-- Message of the `DiffxError` raised when no matcher accepts the input. -/
def invalidRangeMessage (input : String) : String :=
  "Invalid range or URL: " ++ input ++ supportedFormatsText

/-- The `DiffxError` raised when no matcher accepts the input. -/
def rangeParseError (input : String) : DiffxError :=
  ⟨invalidRangeMessage input, .invalidInput⟩

/-- `parseRangeInput`: try each matcher in source order; first success wins. -/
def parseRangeInput (input : String) : Except DiffxError RefRange :=
  match parsePRRange input with
  | some pr =>
    .ok { type := .prRange, left := "", right := "",
          leftPr := some pr.1, rightPr := some pr.2 }
  | none =>
  match parseGitUrlRange input with
  | some g =>
    .ok { type := .gitUrlRange, left := g.leftRef, right := g.rightRef,
          leftGitUrl := some g.leftUrl, rightGitUrl := some g.rightUrl }
  | none =>
  match parseGitHubCompareUrl input with
  | some c =>
    .ok { type := .githubCompareUrl, left := "", right := "",
          ownerRepo := some (c.owner ++ "/" ++ c.repo),
          leftRef := some c.leftRef, rightRef := some c.rightRef,
          rightOwner := c.rightOwner, rightRepo := c.rightRepo }
  | none =>
  match parseGitHubPRChangesUrl input with
  | some pc =>
    .ok { type := .githubPrChangesUrl, left := "", right := "",
          ownerRepo := some (pc.owner ++ "/" ++ pc.repo), prNumber := some pc.prNumber,
          leftCommitSha := some pc.leftCommitSha, rightCommitSha := some pc.rightCommitSha }
  | none =>
  match parseGitHubPRUrl input with
  | some pr =>
    .ok { type := .githubUrl, left := "", right := "",
          ownerRepo := some (pr.owner ++ "/" ++ pr.repo), prNumber := some pr.prNumber }
  | none =>
  match parseGitHubCommitUrl input with
  | some c =>
    .ok { type := .githubCommitUrl, left := "", right := "",
          ownerRepo := some (c.owner ++ "/" ++ c.repo), commitSha := some c.commitSha }
  | none =>
  match parseGithubRefRange input with
  | some g =>
    .ok { type := .gitUrlRange, left := g.left, right := g.right,
          leftGitUrl := some ("git@github.com:" ++ g.ownerRepo ++ ".git"),
          rightGitUrl := some ("git@github.com:" ++ g.ownerRepo ++ ".git") }
  | none =>
  match parseGitlabRefRange input with
  | some g =>
    .ok { type := .gitUrlRange, left := g.left, right := g.right,
          leftGitUrl := some ("git@gitlab.com:" ++ g.ownerRepo ++ ".git"),
          rightGitUrl := some ("git@gitlab.com:" ++ g.ownerRepo ++ ".git") }
  | none =>
  match parsePRRef input with
  | some pr =>
    .ok { type := .prRef, left := "", right := "",
          ownerRepo := some (pr.owner ++ "/" ++ pr.repo), prNumber := some pr.prNumber }
  | none =>
  match parseMRRef input with
  | some mr =>
    .ok { type := .gitlabMrRef, left := "", right := "",
          ownerRepo := some (mr.owner ++ "/" ++ mr.repo), prNumber := some mr.mrNumber }
  | none =>
  match parseRemoteRefRange input with
  | some r =>
    .ok { type := .remoteRange, left := r.left, right := r.right,
          ownerRepo := some r.ownerRepo }
  | none =>
  match parseLocalRefRange input with
  | some l => .ok { type := .localRange, left := l.left, right := l.right }
  | none => .error (rangeParseError input)

/-! ## Git plumbing client model (src/git/git-client.ts)

Each plumbing call consults an oracle `GitEnv` that supplies the reply to the
`i`-th call of the invocation; the state records the calls made so far and the
set of refs existing in the local ref database. -/

/-- One git plumbing call, as issued by a resolver. -/
inductive GitCall where
  | fetchFromUrl (url : String) (refspecs : List String) (depth : Nat)
  | mergeBase (left right : String)
  | refExistsAny (ref : String)
deriving Repr, DecidableEq

/-- The reply to a plumbing call: process stdout, or a failure message. -/
inductive GitReply where
  | ok (out : String)
  | err (msg : String)
deriving Repr, DecidableEq

/-- The oracle answering the `i`-th plumbing call of an invocation. -/
def GitEnv : Type := Nat → GitReply

/-- Observable git-client state threaded through a resolver execution. -/
structure GitState where
  time : Nat
  calls : List GitCall
  refs : Finset String
deriving DecidableEq

/-- Initial state of one invocation. -/
def initSt : GitState := ⟨0, [], ∅⟩

/-- Issue one plumbing call: consume the next oracle reply and log the call. -/
def stepCall (env : GitEnv) (st : GitState) (c : GitCall) : GitReply × GitState :=
  (env st.time, { st with time := st.time + 1, calls := st.calls ++ [c] })

/-- Destination ref of a `src:dst` refspec. -/
def refspecDst (spec : String) : String := (splitOnStr ":" spec).getD 1 ""

/-- `fetchFromUrl`: on success every refspec's destination ref is created. -/
def gitFetchFromUrl (env : GitEnv) (st : GitState) (url : String) (refspecs : List String)
    (depth : Nat) : Except String Unit × GitState :=
  match stepCall env st (.fetchFromUrl url refspecs depth) with
  | (.ok _, st') =>
    (.ok (), { st' with refs := refspecs.foldl (fun s sp => insert (refspecDst sp) s) st'.refs })
  | (.err m, st') => (.error m, st')

/-- `mergeBase`: raw `git merge-base` stdout, or a failure. -/
def gitMergeBase (env : GitEnv) (st : GitState) (a b : String) :
    Except String String × GitState :=
  match stepCall env st (.mergeBase a b) with
  | (.ok out, st') => (.ok out, st')
  | (.err m, st') => (.error m, st')

/-- `refExistsAny`: `rev-parse --verify` wrapped in try/catch, yielding a Bool. -/
def gitRefExistsAny (env : GitEnv) (st : GitState) (ref : String) : Bool × GitState :=
  match stepCall env st (.refExistsAny ref) with
  | (.ok _, st') => (true, st')
  | (.err _, st') => (false, st')

/-- `git update-ref -d`: fails when the ref does not exist. -/
def updateRefDelete (ref : String) (store : Finset String) : Except String (Finset String) :=
  if ref ∈ store then .ok (store.erase ref) else .error ("ref not found: " ++ ref)

/-- `deleteRefs` of the git client: per-ref deletion with every failure
swallowed by a try/catch, so one failing ref never blocks the others. -/
def deleteRefs (refs : List String) (store : Finset String) : Finset String :=
  refs.foldl
    (fun s r =>
      match updateRefDelete r s with
      | .ok s' => s'
      | .error _ => s)
    store

/-- `deleteRefs` as the async boundary sees it: it always resolves. -/
def deleteRefsE (refs : List String) (store : Finset String) :
    Except String (Finset String) :=
  .ok (deleteRefs refs store)

/-! ## Resolvers (src/resolvers/) -/

/-- An error thrown inside a resolver's try block: either a constructed
`DiffxError` or a plain `Error`; a catch block only reads `.message`. -/
inductive JsError where
  | diffx (message : String) (exitCode : ExitCode)
  | plain (message : String)
deriving Repr, DecidableEq

/-- `.message` of a thrown error. -/
def JsError.message : JsError → String
  | .diffx m _ => m
  | .plain m => m

/-- The `{left, right, cleanup?}` record returned by every resolver; `cleanup`
is represented by the list of refs its closure passes to `deleteRefs`. -/
structure ResolvedRefs where
  left : String
  right : String
  cleanup : Option (List String) := none
deriving Repr, DecidableEq

/-- Running a returned cleanup callback against the ref store. -/
def runCleanup (c : Option (List String)) (store : Finset String) : Finset String :=
  match c with
  | none => store
  | some refs => deleteRefs refs store

/-- `buildGitHubUrl` (src/git/utils.ts). -/
def buildGitHubUrl (owner repo : String) : String :=
  "https://github.com/" ++ owner ++ "/" ++ repo ++ ".git"

/-- `normalizeRef` (src/git/utils.ts): strip one `refs/heads/` or `refs/tags/`. -/
def normalizeRef (ref : String) : String :=
  match dropLit "refs/heads/".data ref.data with
  | some r => String.mk r
  | none =>
    match dropLit "refs/tags/".data ref.data with
    | some r => String.mk r
    | none => ref

/-- JS falsiness of an optional number field (`undefined` or `0`). -/
def natFalsy : Option Nat → Bool
  | none => true
  | some n => n == 0

/-- `resolveLocalRefs`: no network, no cleanup; probes both sides then fails
on the first missing one, naming it. -/
def resolveLocalRefs (env : GitEnv) (range : RefRange) (st : GitState) :
    Except DiffxError ResolvedRefs × GitState :=
  if range.type != RefType.localRange then
    (.error ⟨"Invalid ref type for local resolver", .invalidInput⟩, st)
  else
    match gitRefExistsAny env st (normalizeRef range.left) with
    | (leftExists, st1) =>
      match gitRefExistsAny env st1 (normalizeRef range.right) with
      | (rightExists, st2) =>
        if !leftExists then
          (.error ⟨"Left ref does not exist: " ++ range.left, .invalidInput⟩, st2)
        else if !rightExists then
          (.error ⟨"Right ref does not exist: " ++ range.right, .invalidInput⟩, st2)
        else (.ok ⟨normalizeRef range.left, normalizeRef range.right, none⟩, st2)

/-- The `^[^/]+/[^@]+@(.+)$` remote-side match inside `resolveRemoteRefs`. -/
def remoteRefOf (v : String) : Option String :=
  match seg1 '/' v.data with
  | none => none
  | some (_, r1) =>
    match seg1 '@' r1 with
    | none => none
    | some (_, r2) => if r2.isEmpty then none else some (String.mk r2)

/-- `resolveRemoteRefs`: validation (outside the try block), then one shallow
fetch of both refs into `tempNS/left` and `tempNS/right`. -/
def resolveRemoteRefs (env : GitEnv) (tempNS : String) (range : RefRange) (st : GitState) :
    Except DiffxError ResolvedRefs × GitState :=
  if range.type != RefType.remoteRange || strFalsy range.ownerRepo then
    (.error ⟨"Invalid ref type for remote resolver", .invalidInput⟩, st)
  else
    let parts := splitOnStr "/" (range.ownerRepo.getD "")
    let owner := parts.getD 0 ""
    let repo := parts.getD 1 ""
    if owner.data.isEmpty || repo.data.isEmpty then
      (.error ⟨"Invalid owner/repo: " ++ range.ownerRepo.getD "", .invalidInput⟩, st)
    else
      match remoteRefOf range.left, remoteRefOf range.right with
      | some leftRemoteRef, some rightRemoteRef =>
        (match gitFetchFromUrl env st (buildGitHubUrl owner repo)
            [leftRemoteRef ++ ":" ++ (tempNS ++ "/left"),
             rightRemoteRef ++ ":" ++ (tempNS ++ "/right")] 1 with
        | (.ok _, st') =>
          (.ok ⟨tempNS ++ "/left", tempNS ++ "/right",
            some [tempNS ++ "/left", tempNS ++ "/right"]⟩, st')
        | (.error m, st') =>
          (.error ⟨"Failed to fetch remote refs: " ++ m, .gitError⟩, st'))
      | _, _ => (.error ⟨"Invalid remote ref format", .invalidInput⟩, st)

/-- `resolveGitUrlRefs`: one fetch when both URLs agree, else two fetches. -/
def resolveGitUrlRefs (env : GitEnv) (tempNS : String) (range : RefRange) (st : GitState) :
    Except DiffxError ResolvedRefs × GitState :=
  if range.type != RefType.gitUrlRange || strFalsy range.leftGitUrl ||
      strFalsy range.rightGitUrl then
    (.error ⟨"Invalid ref type for git URL resolver", .invalidInput⟩, st)
  else
    let leftUrl := range.leftGitUrl.getD ""
    let rightUrl := range.rightGitUrl.getD ""
    if leftUrl == rightUrl then
      match gitFetchFromUrl env st leftUrl
          [range.left ++ ":" ++ (tempNS ++ "/left"),
           range.right ++ ":" ++ (tempNS ++ "/right")] 1 with
      | (.ok _, st') =>
        (.ok ⟨tempNS ++ "/left", tempNS ++ "/right",
          some [tempNS ++ "/left", tempNS ++ "/right"]⟩, st')
      | (.error m, st') =>
        (.error ⟨"Failed to fetch refs from git URL: " ++ m, .gitError⟩, st')
    else
      match gitFetchFromUrl env st leftUrl [range.left ++ ":" ++ (tempNS ++ "/left")] 1 with
      | (.error m, st') =>
        (.error ⟨"Failed to fetch refs from git URL: " ++ m, .gitError⟩, st')
      | (.ok _, st1) =>
        match gitFetchFromUrl env st1 rightUrl
            [range.right ++ ":" ++ (tempNS ++ "/right")] 1 with
        | (.error m, st') =>
          (.error ⟨"Failed to fetch refs from git URL: " ++ m, .gitError⟩, st')
        | (.ok _, st2) =>
          (.ok ⟨tempNS ++ "/left", tempNS ++ "/right",
            some [tempNS ++ "/left", tempNS ++ "/right"]⟩, st2)

/-- The `{headRef, mergeRef, cleanupRefs}` record of `fetchPRRefs`. -/
structure PRResolvedRefs where
  headRef : String
  mergeRef : String
  cleanupRefs : List String
deriving Repr, DecidableEq

/-- `fetchPRRefs`: fetch `refs/pull/N/head` and `refs/pull/N/merge` at depth 2
into temp refs under the given prefix string. -/
def fetchPRRefs (env : GitEnv) (pr : GitHubPRUrl) (tempNS : String) (st : GitState) :
    Except String PRResolvedRefs × GitState :=
  match gitFetchFromUrl env st (buildGitHubUrl pr.owner pr.repo)
      ["refs/pull/" ++ toString pr.prNumber ++ "/head:" ++
        (tempNS ++ "/pull/" ++ toString pr.prNumber ++ "/head"),
       "refs/pull/" ++ toString pr.prNumber ++ "/merge:" ++
        (tempNS ++ "/pull/" ++ toString pr.prNumber ++ "/merge")] 2 with
  | (.ok _, st') =>
    (.ok ⟨tempNS ++ "/pull/" ++ toString pr.prNumber ++ "/head",
      tempNS ++ "/pull/" ++ toString pr.prNumber ++ "/merge",
      [tempNS ++ "/pull/" ++ toString pr.prNumber ++ "/head",
       tempNS ++ "/pull/" ++ toString pr.prNumber ++ "/merge"]⟩, st')
  | (.error m, st') => (.error m, st')

/-- `resolvePRRefs` (used for both `pr-ref` and `github-url`): note that the
owner/repo validation sits inside the try block, so its `InvalidInput` error
is rewrapped by the catch like any fetch failure. -/
def resolvePRRefsTry (env : GitEnv) (tempNS : String) (range : RefRange) (st : GitState) :
    Except JsError ResolvedRefs × GitState :=
  let parts := splitOnStr "/" (range.ownerRepo.getD "")
  let owner := parts.getD 0 ""
  let repo := parts.getD 1 ""
  if owner.data.isEmpty || repo.data.isEmpty then
    (.error (.diffx ("Invalid owner/repo: " ++ range.ownerRepo.getD "") .invalidInput), st)
  else
    match fetchPRRefs env ⟨owner, repo, range.prNumber.getD 0⟩ tempNS st with
    | (.ok refs, st') =>
      (.ok ⟨refs.mergeRef ++ "^1", refs.mergeRef, some refs.cleanupRefs⟩, st')
    | (.error m, st') => (.error (.plain m), st')

def resolvePRRefs (env : GitEnv) (tempNS : String) (range : RefRange) (st : GitState) :
    Except DiffxError ResolvedRefs × GitState :=
  if strFalsy range.ownerRepo || range.prNumber.isNone then
    (.error ⟨"Invalid PR ref", .invalidInput⟩, st)
  else
    match resolvePRRefsTry env tempNS range st with
    | (.ok r, st') => (.ok r, st')
    | (.error e, st') =>
      (.error ⟨"Failed to fetch PR refs: " ++ e.message, .gitError⟩, st')

/-- The try block of `resolvePRRangeRefs`. -/
def resolvePRRangeRefsTry (env : GitEnv) (tempNS : String) (range : RefRange) (st : GitState) :
    Except JsError ResolvedRefs × GitState :=
  match fetchPRRefs env (range.leftPr.getD ⟨"", "", 0⟩) (tempNS ++ "/left") st with
  | (.error m, st') => (.error (.plain m), st')
  | (.ok leftRefs, st1) =>
    match fetchPRRefs env (range.rightPr.getD ⟨"", "", 0⟩) (tempNS ++ "/right") st1 with
    | (.error m, st') => (.error (.plain m), st')
    | (.ok rightRefs, st2) =>
      (.ok ⟨leftRefs.headRef, rightRefs.headRef,
        some (leftRefs.cleanupRefs ++ rightRefs.cleanupRefs)⟩, st2)

/-- `resolvePRRangeRefs`: two independent `fetchPRRefs` under `left`/`right`
sub-prefixes; heads are the endpoints; all four temp refs are in the cleanup. -/
def resolvePRRangeRefs (env : GitEnv) (tempNS : String) (range : RefRange) (st : GitState) :
    Except DiffxError ResolvedRefs × GitState :=
  if range.leftPr.isNone || range.rightPr.isNone then
    (.error ⟨"Invalid PR range", .invalidInput⟩, st)
  else
    match resolvePRRangeRefsTry env tempNS range st with
    | (.ok r, st') => (.ok r, st')
    | (.error e, st') =>
      (.error ⟨"Failed to fetch PR range refs: " ++ e.message, .gitError⟩, st')

/-- The try block of `resolveGitHubCommitRefs`. -/
def resolveGitHubCommitRefsTry (env : GitEnv) (tempNS : String) (range : RefRange)
    (st : GitState) : Except JsError ResolvedRefs × GitState :=
  let parts := splitOnStr "/" (range.ownerRepo.getD "")
  let owner := parts.getD 0 ""
  let repo := parts.getD 1 ""
  if owner.data.isEmpty || repo.data.isEmpty then
    (.error (.diffx ("Invalid owner/repo: " ++ range.ownerRepo.getD "") .invalidInput), st)
  else
    let sha := range.commitSha.getD ""
    match gitFetchFromUrl env st (buildGitHubUrl owner repo)
        [sha ++ ":" ++ (tempNS ++ "/commit/" ++ sha)] 2 with
    | (.ok _, st') =>
      (.ok ⟨tempNS ++ "/commit/" ++ sha ++ "^", tempNS ++ "/commit/" ++ sha,
        some [tempNS ++ "/commit/" ++ sha]⟩, st')
    | (.error m, st') => (.error (.plain m), st')

/-- `resolveGitHubCommitRefs`: fetch one SHA at depth 2; endpoints
`commit^`..`commit`. -/
def resolveGitHubCommitRefs (env : GitEnv) (tempNS : String) (range : RefRange)
    (st : GitState) : Except DiffxError ResolvedRefs × GitState :=
  if strFalsy range.ownerRepo || strFalsy range.commitSha then
    (.error ⟨"Invalid GitHub commit URL", .invalidInput⟩, st)
  else
    match resolveGitHubCommitRefsTry env tempNS range st with
    | (.ok r, st') => (.ok r, st')
    | (.error e, st') =>
      (.error ⟨"Failed to fetch commit refs: " ++ e.message, .gitError⟩, st')

/-- The try block of `resolveGitHubPRChangesRefs`. -/
def resolveGitHubPRChangesRefsTry (env : GitEnv) (tempNS : String) (range : RefRange)
    (st : GitState) : Except JsError ResolvedRefs × GitState :=
  let parts := splitOnStr "/" (range.ownerRepo.getD "")
  let owner := parts.getD 0 ""
  let repo := parts.getD 1 ""
  if owner.data.isEmpty || repo.data.isEmpty then
    (.error (.diffx ("Invalid owner/repo: " ++ range.ownerRepo.getD "") .invalidInput), st)
  else
    let lsha := range.leftCommitSha.getD ""
    let rsha := range.rightCommitSha.getD ""
    match gitFetchFromUrl env st (buildGitHubUrl owner repo)
        [lsha ++ ":" ++ (tempNS ++ "/left-commit/" ++ lsha),
         rsha ++ ":" ++ (tempNS ++ "/right-commit/" ++ rsha)] 2 with
    | (.ok _, st') =>
      (.ok ⟨tempNS ++ "/left-commit/" ++ lsha, tempNS ++ "/right-commit/" ++ rsha,
        some [tempNS ++ "/left-commit/" ++ lsha, tempNS ++ "/right-commit/" ++ rsha]⟩, st')
    | (.error m, st') => (.error (.plain m), st')

/-- `resolveGitHubPRChangesRefs`: fetch both explicit SHAs at depth 2;
endpoints are the two temp refs verbatim, no merge-base computation. -/
def resolveGitHubPRChangesRefs (env : GitEnv) (tempNS : String) (range : RefRange)
    (st : GitState) : Except DiffxError ResolvedRefs × GitState :=
  if strFalsy range.ownerRepo || natFalsy range.prNumber ||
      strFalsy range.leftCommitSha || strFalsy range.rightCommitSha then
    (.error ⟨"Invalid GitHub PR changes URL", .invalidInput⟩, st)
  else
    match resolveGitHubPRChangesRefsTry env tempNS range st with
    | (.ok r, st') => (.ok r, st')
    | (.error e, st') =>
      (.error ⟨"Failed to fetch PR changes refs: " ++ e.message, .gitError⟩, st')

/-- `isCommitSha` helper of the compare resolver: 7-40 hex characters. -/
def isCommitSha (s : String) : Bool :=
  decide (7 ≤ s.data.length) && decide (s.data.length ≤ 40) && s.data.all isHexChar

/-- `buildRefspec` helper of the compare resolver. -/
def buildRefspec (ref target : String) : List String :=
  if isCommitSha ref then [ref ++ ":" ++ target]
  else ["refs/heads/" ++ ref ++ ":" ++ target, "refs/tags/" ++ ref ++ ":" ++ target]

/-- The `fetchRef` loop of the compare resolver: try each candidate refspec at
depth 1, return the first that fetches, keep the last error otherwise. -/
def fetchRefGo (env : GitEnv) (url ref : String) :
    List String → GitState → Option String → Except String String × GitState
  | [], st, lastErr => (.error (lastErr.getD ("Failed to fetch ref: " ++ ref)), st)
  | spec :: rest, st, _ =>
    match gitFetchFromUrl env st url [spec] 1 with
    | (.ok _, st') => (.ok spec, st')
    | (.error m, st') => fetchRefGo env url ref rest st' (some m)

/-- `fetchRef` of the compare resolver. -/
def fetchRefC (env : GitEnv) (url ref target : String) (st : GitState) :
    Except String String × GitState :=
  fetchRefGo env url ref (buildRefspec ref target) st none

/-- The `getMergeBase` closure of the compare resolver: trim the output and
treat failures and empty output as absence. -/
def getMergeBaseStep (env : GitEnv) (st : GitState) (l r : String) :
    Option String × GitState :=
  match gitMergeBase env st l r with
  | (.ok out, st') => (if (trimStr out).data.isEmpty then none else some (trimStr out), st')
  | (.error _, st') => (none, st')

/-- Merge-base discovery of the compare resolver (lines 254-274 of
src/resolvers/pr-url-resolver.ts): one lookup, then on absence exactly one
depth-200 re-fetch of both previously-successful refspecs and one retry. -/
def compareMergeBasePhase (env : GitEnv) (leftUrl rightUrl leftSpec rightSpec lRef rRef : String)
    (st : GitState) : Except String String × GitState :=
  match getMergeBaseStep env st lRef rRef with
  | (some mb, st1) => (.ok mb, st1)
  | (none, st1) =>
    match gitFetchFromUrl env st1 leftUrl [leftSpec] 200 with
    | (.error m, st2) => (.error m, st2)
    | (.ok _, st2) =>
      match gitFetchFromUrl env st2 rightUrl [rightSpec] 200 with
      | (.error m, st3) => (.error m, st3)
      | (.ok _, st3) =>
        match getMergeBaseStep env st3 lRef rRef with
        | (some mb, st4) => (.ok mb, st4)
        | (none, st4) => (.error "Failed to determine merge base for compare refs", st4)

/-- The try block of `resolveGitHubCompareRefs`. -/
def resolveGitHubCompareRefsTry (env : GitEnv) (tempNS : String) (range : RefRange)
    (st : GitState) : Except JsError ResolvedRefs × GitState :=
  let parts := splitOnStr "/" (range.ownerRepo.getD "")
  let owner := parts.getD 0 ""
  let repo := parts.getD 1 ""
  if owner.data.isEmpty || repo.data.isEmpty then
    (.error (.diffx ("Invalid owner/repo: " ++ range.ownerRepo.getD "") .invalidInput), st)
  else
    let leftDest := tempNS ++ "/left/" ++ range.leftRef.getD ""
    let rightDest := tempNS ++ "/right/" ++ range.rightRef.getD ""
    let leftUrl := buildGitHubUrl owner repo
    let rightUrl := buildGitHubUrl
      (if strFalsy range.rightOwner then owner else range.rightOwner.getD "")
      (if strFalsy range.rightRepo then repo else range.rightRepo.getD "")
    match fetchRefC env leftUrl (range.leftRef.getD "") leftDest st with
    | (.error m, st') => (.error (.plain m), st')
    | (.ok leftSpec, st1) =>
      match fetchRefC env rightUrl (range.rightRef.getD "") rightDest st1 with
      | (.error m, st') => (.error (.plain m), st')
      | (.ok rightSpec, st2) =>
        match compareMergeBasePhase env leftUrl rightUrl leftSpec rightSpec
            leftDest rightDest st2 with
        | (.error m, st') => (.error (.plain m), st')
        | (.ok mb, st3) =>
          (.ok ⟨mb, rightDest, some [leftDest, rightDest]⟩, st3)

/-- `resolveGitHubCompareRefs`: cross-fork-capable compare resolution with the
deepening fallback; final endpoints are `mergeBase`..`rightTempRef`. -/
def resolveGitHubCompareRefs (env : GitEnv) (tempNS : String) (range : RefRange)
    (st : GitState) : Except DiffxError ResolvedRefs × GitState :=
  if strFalsy range.ownerRepo || strFalsy range.leftRef || strFalsy range.rightRef then
    (.error ⟨"Invalid GitHub compare URL", .invalidInput⟩, st)
  else
    match resolveGitHubCompareRefsTry env tempNS range st with
    | (.ok r, st') => (.ok r, st')
    | (.error e, st') =>
      (.error ⟨"Failed to fetch compare refs: " ++ e.message, .gitError⟩, st')

/-- `fetchMRRefs` of the GitLab MR resolver: all validation happens here,
inside the caller's try block. -/
def fetchMRRefs (env : GitEnv) (tempNS : String) (range : RefRange) (st : GitState) :
    Except JsError PRResolvedRefs × GitState :=
  if strFalsy range.ownerRepo || range.prNumber.isNone then
    (.error (.diffx "Invalid GitLab MR ref" .invalidInput), st)
  else
    let parts := splitOnStr "/" (range.ownerRepo.getD "")
    let owner := parts.getD 0 ""
    let repo := parts.getD 1 ""
    if owner.data.isEmpty || repo.data.isEmpty then
      (.error (.diffx ("Invalid owner/repo: " ++ range.ownerRepo.getD "") .invalidInput), st)
    else
      let mr := toString (range.prNumber.getD 0)
      match gitFetchFromUrl env st ("git@gitlab.com:" ++ owner ++ "/" ++ repo ++ ".git")
          ["refs/merge-requests/" ++ mr ++ "/head:" ++
            (tempNS ++ "/merge-requests/" ++ mr ++ "/head"),
           "refs/merge-requests/" ++ mr ++ "/merge:" ++
            (tempNS ++ "/merge-requests/" ++ mr ++ "/merge")] 2 with
      | (.ok _, st') =>
        (.ok ⟨tempNS ++ "/merge-requests/" ++ mr ++ "/head",
          tempNS ++ "/merge-requests/" ++ mr ++ "/merge",
          [tempNS ++ "/merge-requests/" ++ mr ++ "/head",
           tempNS ++ "/merge-requests/" ++ mr ++ "/merge"]⟩, st')
      | (.error m, st') => (.error (.plain m), st')

/-- `resolveGitLabMRRefs`: like the PR resolver but over the MR refs; the
catch rewraps every inner error, validation errors included. -/
def resolveGitLabMRRefs (env : GitEnv) (tempNS : String) (range : RefRange) (st : GitState) :
    Except DiffxError ResolvedRefs × GitState :=
  match fetchMRRefs env tempNS range st with
  | (.ok refs, st') =>
    (.ok ⟨refs.mergeRef ++ "^1", refs.mergeRef, some refs.cleanupRefs⟩, st')
  | (.error e, st') =>
    (.error ⟨"Failed to fetch GitLab MR refs: " ++ e.message, .gitError⟩, st')

/-- The resolver dispatch table (`resolveRefs` in src/resolvers/ref-resolver.ts):
`pr-ref` and `github-url` share `resolvePRRefs`. -/
def resolveRefs (env : GitEnv) (tempNS : String) (range : RefRange) (st : GitState) :
    Except DiffxError ResolvedRefs × GitState :=
  match range.type with
  | .localRange => resolveLocalRefs env range st
  | .remoteRange => resolveRemoteRefs env tempNS range st
  | .prRef => resolvePRRefs env tempNS range st
  | .githubUrl => resolvePRRefs env tempNS range st
  | .prRange => resolvePRRangeRefs env tempNS range st
  | .gitUrlRange => resolveGitUrlRefs env tempNS range st
  | .githubCommitUrl => resolveGitHubCommitRefs env tempNS range st
  | .githubPrChangesUrl => resolveGitHubPRChangesRefs env tempNS range st
  | .githubCompareUrl => resolveGitHubCompareRefs env tempNS range st
  | .gitlabMrRef => resolveGitLabMRRefs env tempNS range st

/-- The twelve matchers in the order `parseRangeInput` tries them, each paired
with the `RefRange` it builds on success. -/
def rangeMatchers : List (String → Option RefRange) :=
  [fun s =>
    match parsePRRange s with
    | some pr =>
      some { type := .prRange, left := "", right := "",
             leftPr := some pr.1, rightPr := some pr.2 }
    | none => none,
   fun s =>
    match parseGitUrlRange s with
    | some g =>
      some { type := .gitUrlRange, left := g.leftRef, right := g.rightRef,
             leftGitUrl := some g.leftUrl, rightGitUrl := some g.rightUrl }
    | none => none,
   fun s =>
    match parseGitHubCompareUrl s with
    | some c =>
      some { type := .githubCompareUrl, left := "", right := "",
             ownerRepo := some (c.owner ++ "/" ++ c.repo),
             leftRef := some c.leftRef, rightRef := some c.rightRef,
             rightOwner := c.rightOwner, rightRepo := c.rightRepo }
    | none => none,
   fun s =>
    match parseGitHubPRChangesUrl s with
    | some pc =>
      some { type := .githubPrChangesUrl, left := "", right := "",
             ownerRepo := some (pc.owner ++ "/" ++ pc.repo), prNumber := some pc.prNumber,
             leftCommitSha := some pc.leftCommitSha, rightCommitSha := some pc.rightCommitSha }
    | none => none,
   fun s =>
    match parseGitHubPRUrl s with
    | some pr =>
      some { type := .githubUrl, left := "", right := "",
             ownerRepo := some (pr.owner ++ "/" ++ pr.repo), prNumber := some pr.prNumber }
    | none => none,
   fun s =>
    match parseGitHubCommitUrl s with
    | some c =>
      some { type := .githubCommitUrl, left := "", right := "",
             ownerRepo := some (c.owner ++ "/" ++ c.repo), commitSha := some c.commitSha }
    | none => none,
   fun s =>
    match parseGithubRefRange s with
    | some g =>
      some { type := .gitUrlRange, left := g.left, right := g.right,
             leftGitUrl := some ("git@github.com:" ++ g.ownerRepo ++ ".git"),
             rightGitUrl := some ("git@github.com:" ++ g.ownerRepo ++ ".git") }
    | none => none,
   fun s =>
    match parseGitlabRefRange s with
    | some g =>
      some { type := .gitUrlRange, left := g.left, right := g.right,
             leftGitUrl := some ("git@gitlab.com:" ++ g.ownerRepo ++ ".git"),
             rightGitUrl := some ("git@gitlab.com:" ++ g.ownerRepo ++ ".git") }
    | none => none,
   fun s =>
    match parsePRRef s with
    | some pr =>
      some { type := .prRef, left := "", right := "",
             ownerRepo := some (pr.owner ++ "/" ++ pr.repo), prNumber := some pr.prNumber }
    | none => none,
   fun s =>
    match parseMRRef s with
    | some mr =>
      some { type := .gitlabMrRef, left := "", right := "",
             ownerRepo := some (mr.owner ++ "/" ++ mr.repo), prNumber := some mr.mrNumber }
    | none => none,
   fun s =>
    match parseRemoteRefRange s with
    | some r =>
      some { type := .remoteRange, left := r.left, right := r.right,
             ownerRepo := some r.ownerRepo }
    | none => none,
   fun s =>
    match parseLocalRefRange s with
    | some l => some { type := .localRange, left := l.left, right := l.right }
    | none => none]

/-- First-success-wins over an ordered matcher list. -/
def firstSome : List (String → Option RefRange) → String → Option RefRange
  | [], _ => none
  | m :: ms, s =>
    match m s with
    | some r => some r
    | none => firstSome ms s

/-- The merge-base outcome encoded by one oracle reply, as the `getMergeBase`
closure of the compare resolver interprets it: failures and all-whitespace
output mean absence. -/
def mbOf : GitReply → Option String
  | .ok out => if (trimStr out).data.isEmpty then none else some (trimStr out)
  | .err _ => none

/-- The example strings enumerated by the parse error message. -/
def supportedFormatLines : List String :=
  ["main..feature", "abc123..def456",
   "owner/repo@main..owner/repo@feature",
   "git@github.com:owner/repo.git@main..feature",
   "https://github.com/owner/repo.git@main..feature",
   "github:owner/repo@main..feature",
   "github:owner/repo#123",
   "github:owner/repo#123..github:owner/repo#456",
   "https://github.com/owner/repo/pull/123",
   "https://github.com/owner/repo/pull/123..https://github.com/owner/repo/pull/456",
   "https://github.com/owner/repo/commit/abc123",
   "https://github.com/owner/repo/pull/123/changes/abc123..def456",
   "https://github.com/owner/repo/compare/main...feature",
   "https://github.com/owner/repo/compare/main...other:repo:feature",
   "gitlab:owner/repo@main..feature",
   "gitlab:owner/repo!123"]

/-! ## Helper lemmas -/

theorem deleteRefs_cons (r : String) (rs : List String) (s : Finset String) :
    deleteRefs (r :: rs) s = deleteRefs rs (s.erase r) := by
  unfold deleteRefs
  simp only [List.foldl_cons]
  congr 1
  by_cases h : r ∈ s
  · simp [updateRefDelete, h]
  · simp only [updateRefDelete, h, if_false, if_neg]
    exact (Finset.erase_eq_of_not_mem h).symm

theorem mem_deleteRefs (rs : List String) (s : Finset String) (x : String) :
    x ∈ deleteRefs rs s ↔ x ∈ s ∧ x ∉ rs := by
  induction rs generalizing s with
  | nil => simp [deleteRefs]
  | cons r rs ih =>
    rw [deleteRefs_cons, ih]
    simp only [Finset.mem_erase, List.mem_cons]
    constructor
    · rintro ⟨⟨hne, hs⟩, hnotin⟩
      exact ⟨hs, fun h => h.elim (fun h' => hne h') hnotin⟩
    · rintro ⟨hs, hnot⟩
      exact ⟨⟨fun h => hnot (Or.inl h), hs⟩, fun h => hnot (Or.inr h)⟩

/-- Every successful exit of the PR-try block carries a cleanup list. -/
theorem resolvePRRefsTry_ok_cleanup (env : GitEnv) (tempNS : String) (range : RefRange)
    (st : GitState) : ∀ r st', resolvePRRefsTry env tempNS range st = (Except.ok r, st') →
    r.cleanup.isSome = true := by
  intro r st' h
  simp only [resolvePRRefsTry] at h
  repeat' split at h
  all_goals simp only [Prod.mk.injEq] at h
  all_goals obtain ⟨h1, h2⟩ := h
  all_goals first
    | exact Except.noConfusion h1
    | (injection h1 with h3; subst h3; rfl)

/-- Every successful exit of the PR-range try block carries a cleanup list. -/
theorem resolvePRRangeRefsTry_ok_cleanup (env : GitEnv) (tempNS : String) (range : RefRange)
    (st : GitState) : ∀ r st', resolvePRRangeRefsTry env tempNS range st = (Except.ok r, st') →
    r.cleanup.isSome = true := by
  intro r st' h
  simp only [resolvePRRangeRefsTry] at h
  repeat' split at h
  all_goals simp only [Prod.mk.injEq] at h
  all_goals obtain ⟨h1, h2⟩ := h
  all_goals first
    | exact Except.noConfusion h1
    | (injection h1 with h3; subst h3; rfl)

/-- Every successful exit of the commit try block carries a cleanup list. -/
theorem resolveGitHubCommitRefsTry_ok_cleanup (env : GitEnv) (tempNS : String)
    (range : RefRange) (st : GitState) :
    ∀ r st', resolveGitHubCommitRefsTry env tempNS range st = (Except.ok r, st') →
    r.cleanup.isSome = true := by
  intro r st' h
  simp only [resolveGitHubCommitRefsTry] at h
  repeat' split at h
  all_goals simp only [Prod.mk.injEq] at h
  all_goals obtain ⟨h1, h2⟩ := h
  all_goals first
    | exact Except.noConfusion h1
    | (injection h1 with h3; subst h3; rfl)

/-- Every successful exit of the PR-changes try block carries a cleanup list. -/
theorem resolveGitHubPRChangesRefsTry_ok_cleanup (env : GitEnv) (tempNS : String)
    (range : RefRange) (st : GitState) :
    ∀ r st', resolveGitHubPRChangesRefsTry env tempNS range st = (Except.ok r, st') →
    r.cleanup.isSome = true := by
  intro r st' h
  simp only [resolveGitHubPRChangesRefsTry] at h
  repeat' split at h
  all_goals simp only [Prod.mk.injEq] at h
  all_goals obtain ⟨h1, h2⟩ := h
  all_goals first
    | exact Except.noConfusion h1
    | (injection h1 with h3; subst h3; rfl)

/-- Every successful exit of the compare try block carries a cleanup list. -/
theorem resolveGitHubCompareRefsTry_ok_cleanup (env : GitEnv) (tempNS : String)
    (range : RefRange) (st : GitState) :
    ∀ r st', resolveGitHubCompareRefsTry env tempNS range st = (Except.ok r, st') →
    r.cleanup.isSome = true := by
  intro r st' h
  simp only [resolveGitHubCompareRefsTry] at h
  repeat' split at h
  all_goals simp only [Prod.mk.injEq] at h
  all_goals obtain ⟨h1, h2⟩ := h
  all_goals first
    | exact Except.noConfusion h1
    | (injection h1 with h3; subst h3; rfl)

/-- `getMergeBaseStep` consumes one oracle reply and logs one merge-base call. -/
theorem getMergeBaseStep_eq (env : GitEnv) (st : GitState) (l r : String) :
    getMergeBaseStep env st l r =
      (mbOf (env st.time),
       { st with time := st.time + 1, calls := st.calls ++ [GitCall.mergeBase l r] }) := by
  cases h : env st.time <;> simp [getMergeBaseStep, gitMergeBase, stepCall, mbOf, h]

/-! ## Claims -/

/-- Claim C7: for every remote-fetching resolver the returned cleanup is
defined on success, and cleanup never raises: `deleteRefs` always resolves,
deletes every listed ref regardless of the others, treats a missing ref as a
no-op rather than an error, and a second invocation of the same cleanup is a
no-op. -/
theorem cleanup_defined_best_effort_idempotent :
    (∀ refs store, deleteRefsE refs store = Except.ok (deleteRefs refs store))
    ∧ (∀ r store, r ∉ store → deleteRefs [r] store = store)
    ∧ (∀ refs store r, r ∈ refs → r ∉ deleteRefs refs store)
    ∧ (∀ refs store, deleteRefs refs (deleteRefs refs store) = deleteRefs refs store)
    ∧ (∀ env tempNS range st res st',
        resolveRemoteRefs env tempNS range st = (Except.ok res, st') →
          res.cleanup.isSome = true)
    ∧ (∀ env tempNS range st res st',
        resolveGitUrlRefs env tempNS range st = (Except.ok res, st') →
          res.cleanup.isSome = true)
    ∧ (∀ env tempNS range st res st',
        resolvePRRefs env tempNS range st = (Except.ok res, st') →
          res.cleanup.isSome = true)
    ∧ (∀ env tempNS range st res st',
        resolvePRRangeRefs env tempNS range st = (Except.ok res, st') →
          res.cleanup.isSome = true)
    ∧ (∀ env tempNS range st res st',
        resolveGitHubCommitRefs env tempNS range st = (Except.ok res, st') →
          res.cleanup.isSome = true)
    ∧ (∀ env tempNS range st res st',
        resolveGitHubPRChangesRefs env tempNS range st = (Except.ok res, st') →
          res.cleanup.isSome = true)
    ∧ (∀ env tempNS range st res st',
        resolveGitHubCompareRefs env tempNS range st = (Except.ok res, st') →
          res.cleanup.isSome = true)
    ∧ (∀ env tempNS range st res st',
        resolveGitLabMRRefs env tempNS range st = (Except.ok res, st') →
          res.cleanup.isSome = true) := by
  refine ⟨fun refs store => rfl, ?_, ?_, ?_, ?_, ?_, ?_, ?_, ?_, ?_, ?_, ?_⟩
  · intro r store h
    rw [deleteRefs_cons]
    simp [deleteRefs, Finset.erase_eq_of_not_mem h]
  · intro refs store r hr hmem
    exact ((mem_deleteRefs refs store r).mp hmem).2 hr
  · intro refs store
    ext x
    simp only [mem_deleteRefs]
    tauto
  · intro env ns range st res st' h
    simp only [resolveRemoteRefs] at h
    repeat' split at h
    all_goals simp only [Prod.mk.injEq] at h
    all_goals obtain ⟨h1, h2⟩ := h
    all_goals first
      | exact Except.noConfusion h1
      | (injection h1 with h3; subst h3; rfl)
  · intro env ns range st res st' h
    simp only [resolveGitUrlRefs] at h
    repeat' split at h
    all_goals simp only [Prod.mk.injEq] at h
    all_goals obtain ⟨h1, h2⟩ := h
    all_goals first
      | exact Except.noConfusion h1
      | (injection h1 with h3; subst h3; rfl)
  · intro env ns range st res st' h
    simp only [resolvePRRefs] at h
    split at h
    · simp at h
    · split at h
      · rename_i r bst heq
        simp only [Prod.mk.injEq] at h
        obtain ⟨h1, h2⟩ := h
        injection h1 with h3
        rw [← h3]
        exact resolvePRRefsTry_ok_cleanup env ns range st r bst heq
      · simp at h
  · intro env ns range st res st' h
    simp only [resolvePRRangeRefs] at h
    split at h
    · simp at h
    · split at h
      · rename_i r bst heq
        simp only [Prod.mk.injEq] at h
        obtain ⟨h1, h2⟩ := h
        injection h1 with h3
        rw [← h3]
        exact resolvePRRangeRefsTry_ok_cleanup env ns range st r bst heq
      · simp at h
  · intro env ns range st res st' h
    simp only [resolveGitHubCommitRefs] at h
    split at h
    · simp at h
    · split at h
      · rename_i r bst heq
        simp only [Prod.mk.injEq] at h
        obtain ⟨h1, h2⟩ := h
        injection h1 with h3
        rw [← h3]
        exact resolveGitHubCommitRefsTry_ok_cleanup env ns range st r bst heq
      · simp at h
  · intro env ns range st res st' h
    simp only [resolveGitHubPRChangesRefs] at h
    split at h
    · simp at h
    · split at h
      · rename_i r bst heq
        simp only [Prod.mk.injEq] at h
        obtain ⟨h1, h2⟩ := h
        injection h1 with h3
        rw [← h3]
        exact resolveGitHubPRChangesRefsTry_ok_cleanup env ns range st r bst heq
      · simp at h
  · intro env ns range st res st' h
    simp only [resolveGitHubCompareRefs] at h
    split at h
    · simp at h
    · split at h
      · rename_i r bst heq
        simp only [Prod.mk.injEq] at h
        obtain ⟨h1, h2⟩ := h
        injection h1 with h3
        rw [← h3]
        exact resolveGitHubCompareRefsTry_ok_cleanup env ns range st r bst heq
      · simp at h
  · intro env ns range st res st' h
    simp only [resolveGitLabMRRefs] at h
    repeat' split at h
    all_goals simp only [Prod.mk.injEq] at h
    all_goals obtain ⟨h1, h2⟩ := h
    all_goals first
      | exact Except.noConfusion h1
      | (injection h1 with h3; subst h3; rfl)

/-- Witness for C7 at concrete inputs. -/
theorem cleanup_defined_best_effort_idempotent_witness :
    ("t/left" ∉ deleteRefs ["t/left", "t/right"] {"t/left", "other"})
    ∧ deleteRefs ["t/gone"] {"kept"} = {"kept"} :=
  ⟨cleanup_defined_best_effort_idempotent.2.2.1 ["t/left", "t/right"]
      {"t/left", "other"} "t/left" (by decide),
   cleanup_defined_best_effort_idempotent.2.1 "t/gone" {"kept"} (by decide)⟩

set_option maxRecDepth 40000 in
/-- Claim C8: an input matched by no recognized grammar makes `parseRangeInput`
raise `InvalidInput` whose message names the original input and contains every
supported-format example. -/
theorem unmatched_input_invalid_error :
    ∀ input : String,
      parsePRRange input = none → parseGitUrlRange input = none →
      parseGitHubCompareUrl input = none → parseGitHubPRChangesUrl input = none →
      parseGitHubPRUrl input = none → parseGitHubCommitUrl input = none →
      parseGithubRefRange input = none → parseGitlabRefRange input = none →
      parsePRRef input = none → parseMRRef input = none →
      parseRemoteRefRange input = none → parseLocalRefRange input = none →
      parseRangeInput input =
          Except.error ⟨"Invalid range or URL: " ++ input ++ supportedFormatsText,
            ExitCode.invalidInput⟩
        ∧ input.data <:+: (invalidRangeMessage input).data
        ∧ ∀ fmt ∈ supportedFormatLines, fmt.data <:+: (invalidRangeMessage input).data := by
  intro input h1 h2 h3 h4 h5 h6 h7 h8 h9 h10 h11 h12
  refine ⟨?_, ?_, ?_⟩
  · simp only [parseRangeInput, h1, h2, h3, h4, h5, h6, h7, h8, h9, h10, h11, h12]
    rfl
  · show input.data <:+: (invalidRangeMessage input).data
    simp only [invalidRangeMessage, String.data_append]
    exact List.infix_append _ _ _
  · intro fmt hf
    have hsub : fmt.data <:+: supportedFormatsText.data := by
      fin_cases hf
      · exact ⟨supportedFormatsText.data.take 37, supportedFormatsText.data.drop 50, by decide⟩
      · exact ⟨supportedFormatsText.data.take 52, supportedFormatsText.data.drop 66, by decide⟩
      · exact ⟨supportedFormatsText.data.take 84, supportedFormatsText.data.drop 119, by decide⟩
      · exact ⟨supportedFormatsText.data.take 133, supportedFormatsText.data.drop 176, by decide⟩
      · exact ⟨supportedFormatsText.data.take 198, supportedFormatsText.data.drop 245, by decide⟩
      · exact ⟨supportedFormatsText.data.take 263, supportedFormatsText.data.drop 294, by decide⟩
      · exact ⟨supportedFormatsText.data.take 314, supportedFormatsText.data.drop 335, by decide⟩
      · exact ⟨supportedFormatsText.data.take 357, supportedFormatsText.data.drop 401, by decide⟩
      · exact ⟨supportedFormatsText.data.take 421, supportedFormatsText.data.drop 459, by decide⟩
      · exact ⟨supportedFormatsText.data.take 478, supportedFormatsText.data.drop 556, by decide⟩
      · exact ⟨supportedFormatsText.data.take 580, supportedFormatsText.data.drop 623, by decide⟩
      · exact ⟨supportedFormatsText.data.take 651, supportedFormatsText.data.drop 712, by decide⟩
      · exact ⟨supportedFormatsText.data.take 737, supportedFormatsText.data.drop 789, by decide⟩
      · exact ⟨supportedFormatsText.data.take 814, supportedFormatsText.data.drop 877, by decide⟩
      · exact ⟨supportedFormatsText.data.take 895, supportedFormatsText.data.drop 926, by decide⟩
      · exact ⟨supportedFormatsText.data.take 946, supportedFormatsText.data.drop 967, by decide⟩
    obtain ⟨u, v, huv⟩ := hsub
    refine ⟨("Invalid range or URL: " ++ input).data ++ u, v, ?_⟩
    simp only [invalidRangeMessage, String.data_append, ← huv]
    simp [List.append_assoc]

/-- Witness for C8: `"???"` matches no grammar. -/
theorem unmatched_input_invalid_error_witness :
    parseRangeInput "???" =
        Except.error ⟨"Invalid range or URL: " ++ "???" ++ supportedFormatsText,
          ExitCode.invalidInput⟩
      ∧ "???".data <:+: (invalidRangeMessage "???").data :=
  ⟨(unmatched_input_invalid_error "???"
      rfl rfl rfl rfl rfl rfl rfl rfl rfl rfl rfl rfl).1,
   (unmatched_input_invalid_error "???"
      rfl rfl rfl rfl rfl rfl rfl rfl rfl rfl rfl rfl).2.1⟩

/-- Claim C3 (code bug): a malformed owner/repo surfaces as `InvalidInput`
(exit 2) only from the remote resolver; the PR, commit, PR-changes, compare
and GitLab MR resolvers construct the same `InvalidInput` error inside their
try block, whose catch rewraps it as `GitError` (exit 3). -/
theorem malformed_owner_repo_exit_codes :
    ((resolveRemoteRefs (fun _ => GitReply.err "unused") "T"
        { type := .remoteRange, left := "owner/repo@main", right := "owner/repo@dev",
          ownerRepo := some "invalid" } initSt).1
      = Except.error ⟨"Invalid owner/repo: invalid", ExitCode.invalidInput⟩)
    ∧ ((resolvePRRefs (fun _ => GitReply.err "unused") "T"
        { type := .prRef, left := "", right := "",
          ownerRepo := some "invalid", prNumber := some 123 } initSt).1
      = Except.error ⟨"Failed to fetch PR refs: Invalid owner/repo: invalid",
          ExitCode.gitError⟩)
    ∧ ((resolveGitHubCommitRefs (fun _ => GitReply.err "unused") "T"
        { type := .githubCommitUrl, left := "", right := "",
          ownerRepo := some "invalid", commitSha := some "abc1234" } initSt).1
      = Except.error ⟨"Failed to fetch commit refs: Invalid owner/repo: invalid",
          ExitCode.gitError⟩)
    ∧ ((resolveGitHubPRChangesRefs (fun _ => GitReply.err "unused") "T"
        { type := .githubPrChangesUrl, left := "", right := "",
          ownerRepo := some "invalid", prNumber := some 123,
          leftCommitSha := some "abc1234", rightCommitSha := some "def5678" } initSt).1
      = Except.error ⟨"Failed to fetch PR changes refs: Invalid owner/repo: invalid",
          ExitCode.gitError⟩)
    ∧ ((resolveGitHubCompareRefs (fun _ => GitReply.err "unused") "T"
        { type := .githubCompareUrl, left := "", right := "",
          ownerRepo := some "invalid", leftRef := some "main",
          rightRef := some "dev" } initSt).1
      = Except.error ⟨"Failed to fetch compare refs: Invalid owner/repo: invalid",
          ExitCode.gitError⟩)
    ∧ ((resolveGitLabMRRefs (fun _ => GitReply.err "unused") "T"
        { type := .gitlabMrRef, left := "", right := "",
          ownerRepo := some "invalid", prNumber := some 123 } initSt).1
      = Except.error ⟨"Failed to fetch GitLab MR refs: Invalid owner/repo: invalid",
          ExitCode.gitError⟩)
    ∧ ExitCode.invalidInput.toNat = 2 ∧ ExitCode.gitError.toNat = 3 :=
  ⟨rfl, rfl, rfl, rfl, rfl, rfl, rfl, rfl⟩

/-- Claim C5: `parseRangeInput` equals first-match-wins over the matcher list
in the order PR-range, git-URL-range, compare-URL, PR-changes-URL, PR-URL,
commit-URL, GitHub-shorthand, GitLab-shorthand, PR-ref, MR-ref, remote-range,
local-range; in particular a `..`-joined pair of PR URLs parses as `pr-range`,
which is neither `remote-range` nor `local-range`. -/
theorem parse_precedence_first_match :
    (∀ input, parseRangeInput input =
        match firstSome rangeMatchers input with
        | some r => Except.ok r
        | none => Except.error (rangeParseError input))
    ∧ (parseRangeInput "https://github.com/o/r/pull/1..https://github.com/o/r/pull/2"
        = Except.ok { type := .prRange, left := "", right := "",
                      leftPr := some ⟨"o", "r", 1⟩, rightPr := some ⟨"o", "r", 2⟩ })
    ∧ RefType.prRange ≠ RefType.remoteRange ∧ RefType.prRange ≠ RefType.localRange := by
  refine ⟨?_, rfl, by decide, by decide⟩
  intro input
  cases h0 : parsePRRange input with
  | some v =>
    simp only [parseRangeInput, rangeMatchers, firstSome, h0]
  | none =>
    cases h1 : parseGitUrlRange input with
    | some v =>
      simp only [parseRangeInput, rangeMatchers, firstSome, h0, h1]
    | none =>
      cases h2 : parseGitHubCompareUrl input with
      | some v =>
        simp only [parseRangeInput, rangeMatchers, firstSome, h0, h1, h2]
      | none =>
        cases h3 : parseGitHubPRChangesUrl input with
        | some v =>
          simp only [parseRangeInput, rangeMatchers, firstSome, h0, h1, h2, h3]
        | none =>
          cases h4 : parseGitHubPRUrl input with
          | some v =>
            simp only [parseRangeInput, rangeMatchers, firstSome, h0, h1, h2, h3, h4]
          | none =>
            cases h5 : parseGitHubCommitUrl input with
            | some v =>
              simp only [parseRangeInput, rangeMatchers, firstSome, h0, h1, h2, h3, h4, h5]
            | none =>
              cases h6 : parseGithubRefRange input with
              | some v =>
                simp only [parseRangeInput, rangeMatchers, firstSome, h0, h1, h2, h3, h4, h5, h6]
              | none =>
                cases h7 : parseGitlabRefRange input with
                | some v =>
                  simp only [parseRangeInput, rangeMatchers, firstSome, h0, h1, h2, h3, h4, h5, h6, h7]
                | none =>
                  cases h8 : parsePRRef input with
                  | some v =>
                    simp only [parseRangeInput, rangeMatchers, firstSome, h0, h1, h2, h3, h4, h5, h6, h7, h8]
                  | none =>
                    cases h9 : parseMRRef input with
                    | some v =>
                      simp only [parseRangeInput, rangeMatchers, firstSome, h0, h1, h2, h3, h4, h5, h6, h7, h8, h9]
                    | none =>
                      cases h10 : parseRemoteRefRange input with
                      | some v =>
                        simp only [parseRangeInput, rangeMatchers, firstSome, h0, h1, h2, h3, h4, h5, h6, h7, h8, h9, h10]
                      | none =>
                        cases h11 : parseLocalRefRange input with
                        | some v =>
                          simp only [parseRangeInput, rangeMatchers, firstSome, h0, h1, h2, h3, h4, h5, h6, h7, h8, h9, h10, h11]
                        | none =>
                          simp only [parseRangeInput, rangeMatchers, firstSome, h0, h1, h2, h3, h4, h5, h6, h7, h8, h9, h10, h11]

/-- Claim C9: `github:`/`gitlab:` shorthand ranges become `git-url-range` with
the SSH URL `git@github.com:owner/repo.git` (resp. gitlab.com) on both sides,
and `git-url-range` dispatches to the git-URL resolver. -/
theorem shorthand_ranges_use_ssh_git_url :
    (∀ input g,
      parsePRRange input = none → parseGitUrlRange input = none →
      parseGitHubCompareUrl input = none → parseGitHubPRChangesUrl input = none →
      parseGitHubPRUrl input = none → parseGitHubCommitUrl input = none →
      parseGithubRefRange input = some g →
      parseRangeInput input = Except.ok
        { type := .gitUrlRange, left := g.left, right := g.right,
          leftGitUrl := some ("git@github.com:" ++ g.ownerRepo ++ ".git"),
          rightGitUrl := some ("git@github.com:" ++ g.ownerRepo ++ ".git") })
    ∧ (∀ input g,
      parsePRRange input = none → parseGitUrlRange input = none →
      parseGitHubCompareUrl input = none → parseGitHubPRChangesUrl input = none →
      parseGitHubPRUrl input = none → parseGitHubCommitUrl input = none →
      parseGithubRefRange input = none → parseGitlabRefRange input = some g →
      parseRangeInput input = Except.ok
        { type := .gitUrlRange, left := g.left, right := g.right,
          leftGitUrl := some ("git@gitlab.com:" ++ g.ownerRepo ++ ".git"),
          rightGitUrl := some ("git@gitlab.com:" ++ g.ownerRepo ++ ".git") })
    ∧ (∀ env tempNS range st, range.type = RefType.gitUrlRange →
        resolveRefs env tempNS range st = resolveGitUrlRefs env tempNS range st) := by
  refine ⟨?_, ?_, ?_⟩
  · intro input g h1 h2 h3 h4 h5 h6 hg
    simp only [parseRangeInput, h1, h2, h3, h4, h5, h6, hg]
  · intro input g h1 h2 h3 h4 h5 h6 h7 hg
    simp only [parseRangeInput, h1, h2, h3, h4, h5, h6, h7, hg]
  · intro env tempNS range st h
    simp only [resolveRefs, h]

/-- Witness for C9 at concrete shorthand inputs. -/
theorem shorthand_ranges_use_ssh_git_url_witness :
    parseRangeInput "github:o/r@main..dev" = Except.ok
        { type := .gitUrlRange, left := "main", right := "dev",
          leftGitUrl := some ("git@github.com:" ++ "o/r" ++ ".git"),
          rightGitUrl := some ("git@github.com:" ++ "o/r" ++ ".git") }
    ∧ parseRangeInput "gitlab:o/r@a..b" = Except.ok
        { type := .gitUrlRange, left := "a", right := "b",
          leftGitUrl := some ("git@gitlab.com:" ++ "o/r" ++ ".git"),
          rightGitUrl := some ("git@gitlab.com:" ++ "o/r" ++ ".git") } :=
  ⟨shorthand_ranges_use_ssh_git_url.1 "github:o/r@main..dev" ⟨"o/r", "main", "dev"⟩
      rfl rfl rfl rfl rfl rfl rfl,
   shorthand_ranges_use_ssh_git_url.2.1 "gitlab:o/r@a..b" ⟨"o/r", "a", "b"⟩
      rfl rfl rfl rfl rfl rfl rfl rfl⟩

/-- A side that `parseRemoteSide` accepts is nonempty. -/
theorem parseRemoteSide_ne_nil {v : String} {l : RemoteSide}
    (h : parseRemoteSide v = some l) : v.data.isEmpty = false := by
  cases hv : v.data with
  | nil =>
    exfalso
    rw [parseRemoteSide, hv] at h
    simp [seg1] at h
  | cons c cs => rfl

/-- Claim C10: a remote-shorthand range whose two full sides name different
owner/repo pairs is declined by the remote matcher, falls through to
`local-range` with the literal sides, and the local resolver then rejects the
nonexistent left side with `InvalidInput`. -/
theorem remote_owner_mismatch_falls_to_local :
    (∀ input i l rFull,
      firstIdx "..".data input.data = some i →
      parseRemoteSide (trimStr (String.mk (input.data.take i))) = some l →
      parseRemoteSide (trimStr (String.mk (input.data.drop (i + 2)))) = some rFull →
      (rFull.owner != l.owner || rFull.repo != l.repo) = true →
      parseRemoteRefRange input = none)
    ∧ parseRangeInput "a/b@x..c/d@y"
        = Except.ok { type := .localRange, left := "a/b@x", right := "c/d@y" }
    ∧ (∀ env st s0, env st.time = GitReply.err s0 →
        (resolveLocalRefs env
            { type := .localRange, left := "a/b@x", right := "c/d@y" } st).1
          = Except.error ⟨"Left ref does not exist: a/b@x", ExitCode.invalidInput⟩) := by
  refine ⟨?_, rfl, ?_⟩
  · intro input i l rFull hidx hL hR hneq
    have hLne := parseRemoteSide_ne_nil hL
    have hRne := parseRemoteSide_ne_nil hR
    simp only [parseRemoteRefRange, hidx, hLne, hRne, hL, hR, hneq]
    rfl
  · intro env st s0 henv
    cases h2 : env (st.time + 1) <;>
      simp [resolveLocalRefs, gitRefExistsAny, stepCall, henv, h2]

/-- Witness for C10 at the concrete input `a/b@x..c/d@y`. -/
theorem remote_owner_mismatch_falls_to_local_witness :
    parseRemoteRefRange "a/b@x..c/d@y" = none
    ∧ (resolveLocalRefs (fun _ => GitReply.err "unknown revision")
        { type := .localRange, left := "a/b@x", right := "c/d@y" } initSt).1
      = Except.error ⟨"Left ref does not exist: a/b@x", ExitCode.invalidInput⟩ :=
  ⟨remote_owner_mismatch_falls_to_local.1 "a/b@x..c/d@y" 5
      ⟨"a", "b", "x"⟩ ⟨"c", "d", "y"⟩ rfl rfl rfl rfl,
   remote_owner_mismatch_falls_to_local.2.2 (fun _ => GitReply.err "unknown revision")
      initSt "unknown revision" rfl⟩

/-- Claim C6: for a `pr-ref` or `github-url` range with PR number `n`, the
resolver issues one depth-2 fetch of `refs/pull/n/head` and `refs/pull/n/merge`
and returns a right endpoint ending in `/pull/n/merge` with the left endpoint
equal to `right ++ "^1"`. -/
theorem pr_ref_resolution_endpoints :
    ∀ (env : GitEnv) (tempNS orStr owner repo : String) (n : Nat) (ty : RefType)
      (s0 : String),
      ty = RefType.prRef ∨ ty = RefType.githubUrl →
      splitOnStr "/" orStr = [owner, repo] →
      owner.data.isEmpty = false → repo.data.isEmpty = false →
      orStr.data.isEmpty = false →
      env 0 = GitReply.ok s0 →
      ((resolveRefs env tempNS
          { type := ty, left := "", right := "", ownerRepo := some orStr,
            prNumber := some n } initSt).1
        = Except.ok ⟨tempNS ++ "/pull/" ++ toString n ++ "/merge" ++ "^1",
            tempNS ++ "/pull/" ++ toString n ++ "/merge",
            some [tempNS ++ "/pull/" ++ toString n ++ "/head",
                  tempNS ++ "/pull/" ++ toString n ++ "/merge"]⟩)
      ∧ ((resolveRefs env tempNS
          { type := ty, left := "", right := "", ownerRepo := some orStr,
            prNumber := some n } initSt).2.calls
        = [GitCall.fetchFromUrl (buildGitHubUrl owner repo)
            ["refs/pull/" ++ toString n ++ "/head:" ++
              (tempNS ++ "/pull/" ++ toString n ++ "/head"),
             "refs/pull/" ++ toString n ++ "/merge:" ++
              (tempNS ++ "/pull/" ++ toString n ++ "/merge")] 2])
      ∧ (∃ p, tempNS ++ "/pull/" ++ toString n ++ "/merge"
          = p ++ ("/pull/" ++ toString n ++ "/merge")) := by
  intro env tempNS orStr owner repo n ty s0 hty hsplit how hrep hor h0
  have hdis : resolveRefs env tempNS
      { type := ty, left := "", right := "", ownerRepo := some orStr,
        prNumber := some n } initSt
      = resolvePRRefs env tempNS
        { type := ty, left := "", right := "", ownerRepo := some orStr,
          prNumber := some n } initSt := by
    rcases hty with h | h <;> (subst h; simp only [resolveRefs])
  refine ⟨?_, ?_, ⟨tempNS, ?_⟩⟩
  · rw [hdis]
    simp only [resolvePRRefs, resolvePRRefsTry, fetchPRRefs, gitFetchFromUrl, stepCall,
      strFalsy, Option.getD, Option.isNone, hsplit, how, hrep, hor, h0, initSt,
      List.getD, List.get?_cons_zero, List.get?_cons_succ, List.get?_nil,
      Bool.or_false, Bool.false_or, Bool.or_self, if_false, reduceCtorEq]
  · rw [hdis]
    simp only [resolvePRRefs, resolvePRRefsTry, fetchPRRefs, gitFetchFromUrl, stepCall,
      strFalsy, Option.getD, Option.isNone, hsplit, how, hrep, hor, h0, initSt,
      List.getD, List.get?_cons_zero, List.get?_cons_succ, List.get?_nil,
      Bool.or_false, Bool.false_or, Bool.or_self, if_false, reduceCtorEq,
      List.nil_append]
  · apply String.ext
    simp [String.data_append, List.append_assoc]

/-- Witness for C6 at PR number 7 of `o/r`. -/
theorem pr_ref_resolution_endpoints_witness :
    (resolveRefs (fun _ => GitReply.ok "") "T"
        { type := RefType.prRef, left := "", right := "", ownerRepo := some "o/r",
          prNumber := some 7 } initSt).1
      = Except.ok ⟨"T" ++ "/pull/" ++ toString 7 ++ "/merge" ++ "^1",
          "T" ++ "/pull/" ++ toString 7 ++ "/merge",
          some ["T" ++ "/pull/" ++ toString 7 ++ "/head",
                "T" ++ "/pull/" ++ toString 7 ++ "/merge"]⟩ :=
  (pr_ref_resolution_endpoints (fun _ => GitReply.ok "") "T" "o/r" "o" "r" 7
    RefType.prRef "" (Or.inl rfl) rfl rfl rfl rfl rfl).1

/-- Claim C4: PR-range resolution performs two independent depth-2 fetches of
head and merge refs under the `left`/`right` sub-prefixes, uses the two head
temp refs as endpoints, and its cleanup lists all four temp refs. -/
theorem pr_range_resolution_shape :
    ∀ (env : GitEnv) (tempNS : String) (lp rp : GitHubPRUrl) (s0 s1 : String),
      env 0 = GitReply.ok s0 → env 1 = GitReply.ok s1 →
      ((resolveRefs env tempNS
          { type := .prRange, left := "", right := "", leftPr := some lp,
            rightPr := some rp } initSt).1
        = Except.ok ⟨(tempNS ++ "/left") ++ "/pull/" ++ toString lp.prNumber ++ "/head",
            (tempNS ++ "/right") ++ "/pull/" ++ toString rp.prNumber ++ "/head",
            some [(tempNS ++ "/left") ++ "/pull/" ++ toString lp.prNumber ++ "/head",
                  (tempNS ++ "/left") ++ "/pull/" ++ toString lp.prNumber ++ "/merge",
                  (tempNS ++ "/right") ++ "/pull/" ++ toString rp.prNumber ++ "/head",
                  (tempNS ++ "/right") ++ "/pull/" ++ toString rp.prNumber ++ "/merge"]⟩)
      ∧ ((resolveRefs env tempNS
          { type := .prRange, left := "", right := "", leftPr := some lp,
            rightPr := some rp } initSt).2.calls
        = [GitCall.fetchFromUrl (buildGitHubUrl lp.owner lp.repo)
            ["refs/pull/" ++ toString lp.prNumber ++ "/head:" ++
              ((tempNS ++ "/left") ++ "/pull/" ++ toString lp.prNumber ++ "/head"),
             "refs/pull/" ++ toString lp.prNumber ++ "/merge:" ++
              ((tempNS ++ "/left") ++ "/pull/" ++ toString lp.prNumber ++ "/merge")] 2,
           GitCall.fetchFromUrl (buildGitHubUrl rp.owner rp.repo)
            ["refs/pull/" ++ toString rp.prNumber ++ "/head:" ++
              ((tempNS ++ "/right") ++ "/pull/" ++ toString rp.prNumber ++ "/head"),
             "refs/pull/" ++ toString rp.prNumber ++ "/merge:" ++
              ((tempNS ++ "/right") ++ "/pull/" ++ toString rp.prNumber ++ "/merge")] 2]) := by
  intro env tempNS lp rp s0 s1 h0 h1
  have h1' : env (0 + 1) = GitReply.ok s1 := by simpa using h1
  constructor
  · simp only [resolveRefs, resolvePRRangeRefs, resolvePRRangeRefsTry, fetchPRRefs,
      gitFetchFromUrl, stepCall, Option.isNone, Option.getD, h0, h1', initSt,
      Bool.or_self, if_false, reduceCtorEq, List.cons_append, List.nil_append]
  · simp only [resolveRefs, resolvePRRangeRefs, resolvePRRangeRefsTry, fetchPRRefs,
      gitFetchFromUrl, stepCall, Option.isNone, Option.getD, h0, h1', initSt,
      Bool.or_self, if_false, reduceCtorEq, List.nil_append, List.cons_append,
      List.append_nil]

/-- Witness for C4 at PRs 1 and 2 of `o/r`. -/
theorem pr_range_resolution_shape_witness :
    (resolveRefs (fun _ => GitReply.ok "") "T"
        { type := RefType.prRange, left := "", right := "",
          leftPr := some ⟨"o", "r", 1⟩, rightPr := some ⟨"o", "r", 2⟩ } initSt).1
      = Except.ok ⟨("T" ++ "/left") ++ "/pull/" ++ toString 1 ++ "/head",
          ("T" ++ "/right") ++ "/pull/" ++ toString 2 ++ "/head",
          some [("T" ++ "/left") ++ "/pull/" ++ toString 1 ++ "/head",
                ("T" ++ "/left") ++ "/pull/" ++ toString 1 ++ "/merge",
                ("T" ++ "/right") ++ "/pull/" ++ toString 2 ++ "/head",
                ("T" ++ "/right") ++ "/pull/" ++ toString 2 ++ "/merge"]⟩ :=
  (pr_range_resolution_shape (fun _ => GitReply.ok "") "T" ⟨"o", "r", 1⟩ ⟨"o", "r", 2⟩
    "" "" rfl rfl).1

/-- Claim C1 (amended): for PR-range resolution, cleanup of created temp refs
is guaranteed only on the success path — there the returned cleanup removes
every ref the two fetches created; an execution whose second fetch fails
propagates the wrapped error with the first fetch's temp refs still present
and no cleanup returned. -/
theorem pr_range_cleanup_success_path_only :
    (∀ (env : GitEnv) (s0 s1 : String),
      env 0 = GitReply.ok s0 → env 1 = GitReply.ok s1 →
      ∃ res st',
        resolvePRRangeRefs env "refs/diffx/tmp/t"
            { type := .prRange, left := "", right := "",
              leftPr := some ⟨"o", "r", 1⟩, rightPr := some ⟨"o", "r", 2⟩ } initSt
          = (Except.ok res, st')
        ∧ res.cleanup.isSome = true
        ∧ runCleanup res.cleanup st'.refs = ∅)
    ∧ (∀ (env : GitEnv) (s0 m : String),
      env 0 = GitReply.ok s0 → env 1 = GitReply.err m →
      ∃ e st',
        resolvePRRangeRefs env "refs/diffx/tmp/t"
            { type := .prRange, left := "", right := "",
              leftPr := some ⟨"o", "r", 1⟩, rightPr := some ⟨"o", "r", 2⟩ } initSt
          = (Except.error e, st')
        ∧ st'.refs ≠ ∅) := by
  constructor
  · intro env s0 s1 h0 h1
    have h1' : env (0 + 1) = GitReply.ok s1 := by simpa using h1
    simp only [resolvePRRangeRefs, resolvePRRangeRefsTry, fetchPRRefs, gitFetchFromUrl,
      stepCall, Option.isNone, Option.getD, h0, h1', initSt, Bool.or_self, if_false,
      reduceCtorEq, List.cons_append, List.nil_append]
    exact ⟨_, _, rfl, rfl, by decide⟩
  · intro env s0 m h0 h1
    have h1' : env (0 + 1) = GitReply.err m := by simpa using h1
    simp only [resolvePRRangeRefs, resolvePRRangeRefsTry, fetchPRRefs, gitFetchFromUrl,
      stepCall, Option.isNone, Option.getD, h0, h1', initSt, Bool.or_self, if_false,
      reduceCtorEq, List.cons_append, List.nil_append]
    exact ⟨_, _, rfl, by decide⟩

/-- Witness for C1 (amended) at an all-successful oracle. -/
theorem pr_range_cleanup_success_path_only_witness :
    ∃ res st',
      resolvePRRangeRefs (fun _ => GitReply.ok "") "refs/diffx/tmp/t"
          { type := .prRange, left := "", right := "",
            leftPr := some ⟨"o", "r", 1⟩, rightPr := some ⟨"o", "r", 2⟩ } initSt
        = (Except.ok res, st')
      ∧ res.cleanup.isSome = true
      ∧ runCleanup res.cleanup st'.refs = ∅ :=
  pr_range_cleanup_success_path_only.1 (fun _ => GitReply.ok "") "" "" rfl rfl

/-- Counterexample to C1 as stated: with the left PR fetch succeeding and the
right one failing, `resolvePRRangeRefs` propagates an error while the two temp
refs created by the left fetch remain in the ref database, and no cleanup
callback exists in the error outcome. -/
theorem pr_range_partial_failure_leaks_temp_refs :
    ((resolvePRRangeRefs
        (fun k => if k == 0 then GitReply.ok "" else GitReply.err "network down")
        "refs/diffx/tmp/t"
        { type := .prRange, left := "", right := "",
          leftPr := some ⟨"o", "r", 1⟩, rightPr := some ⟨"o", "r", 2⟩ } initSt).1
      = Except.error ⟨"Failed to fetch PR range refs: network down", ExitCode.gitError⟩)
    ∧ "refs/diffx/tmp/t/left/pull/1/head" ∈
        (resolvePRRangeRefs
          (fun k => if k == 0 then GitReply.ok "" else GitReply.err "network down")
          "refs/diffx/tmp/t"
          { type := .prRange, left := "", right := "",
            leftPr := some ⟨"o", "r", 1⟩, rightPr := some ⟨"o", "r", 2⟩ } initSt).2.refs
    ∧ "refs/diffx/tmp/t/left/pull/1/merge" ∈
        (resolvePRRangeRefs
          (fun k => if k == 0 then GitReply.ok "" else GitReply.err "network down")
          "refs/diffx/tmp/t"
          { type := .prRange, left := "", right := "",
            leftPr := some ⟨"o", "r", 1⟩, rightPr := some ⟨"o", "r", 2⟩ } initSt).2.refs :=
  ⟨rfl, by decide, by decide⟩

/-- Claim C2: when the first merge-base lookup fails, the compare resolver
performs exactly one deepening cycle — one depth-200 re-fetch of each
previously-successful refspec and exactly one merge-base retry — succeeding
when the retry finds a base and otherwise failing with `GitError`; when the
first lookup succeeds there is no re-fetch at all. -/
theorem compare_mergebase_single_deepening :
    (∀ (env : GitEnv) (leftUrl rightUrl lSpec rSpec lRef rRef : String) (st : GitState)
      (s1 s2 : String),
      mbOf (env st.time) = none →
      env (st.time + 1) = GitReply.ok s1 → env (st.time + 2) = GitReply.ok s2 →
      ((compareMergeBasePhase env leftUrl rightUrl lSpec rSpec lRef rRef st).2.calls
        = st.calls ++ [GitCall.mergeBase lRef rRef,
            GitCall.fetchFromUrl leftUrl [lSpec] 200,
            GitCall.fetchFromUrl rightUrl [rSpec] 200,
            GitCall.mergeBase lRef rRef])
      ∧ (∀ mb, mbOf (env (st.time + 3)) = some mb →
          (compareMergeBasePhase env leftUrl rightUrl lSpec rSpec lRef rRef st).1
            = Except.ok mb)
      ∧ (mbOf (env (st.time + 3)) = none →
          (compareMergeBasePhase env leftUrl rightUrl lSpec rSpec lRef rRef st).1
            = Except.error "Failed to determine merge base for compare refs"))
    ∧ (∀ (env : GitEnv) (leftUrl rightUrl lSpec rSpec lRef rRef : String) (st : GitState)
      (mb : String),
      mbOf (env st.time) = some mb →
      ((compareMergeBasePhase env leftUrl rightUrl lSpec rSpec lRef rRef st).2.calls
        = st.calls ++ [GitCall.mergeBase lRef rRef])
      ∧ (compareMergeBasePhase env leftUrl rightUrl lSpec rSpec lRef rRef st).1
        = Except.ok mb)
    ∧ (∀ (env : GitEnv) (tempNS orStr owner repo lsha rsha : String)
      (s0 s1 s3 s4 : String),
      splitOnStr "/" orStr = [owner, repo] →
      owner.data.isEmpty = false → repo.data.isEmpty = false →
      orStr.data.isEmpty = false →
      lsha.data.isEmpty = false → rsha.data.isEmpty = false →
      isCommitSha lsha = true → isCommitSha rsha = true →
      env 0 = GitReply.ok s0 → env 1 = GitReply.ok s1 →
      mbOf (env 2) = none →
      env 3 = GitReply.ok s3 → env 4 = GitReply.ok s4 →
      ((resolveGitHubCompareRefs env tempNS
          { type := .githubCompareUrl, left := "", right := "", ownerRepo := some orStr,
            leftRef := some lsha, rightRef := some rsha } initSt).2.calls
        = [GitCall.fetchFromUrl (buildGitHubUrl owner repo)
             [lsha ++ ":" ++ (tempNS ++ "/left/" ++ lsha)] 1,
           GitCall.fetchFromUrl (buildGitHubUrl owner repo)
             [rsha ++ ":" ++ (tempNS ++ "/right/" ++ rsha)] 1,
           GitCall.mergeBase (tempNS ++ "/left/" ++ lsha) (tempNS ++ "/right/" ++ rsha),
           GitCall.fetchFromUrl (buildGitHubUrl owner repo)
             [lsha ++ ":" ++ (tempNS ++ "/left/" ++ lsha)] 200,
           GitCall.fetchFromUrl (buildGitHubUrl owner repo)
             [rsha ++ ":" ++ (tempNS ++ "/right/" ++ rsha)] 200,
           GitCall.mergeBase (tempNS ++ "/left/" ++ lsha) (tempNS ++ "/right/" ++ rsha)])
      ∧ (mbOf (env 5) = none →
          (resolveGitHubCompareRefs env tempNS
            { type := .githubCompareUrl, left := "", right := "", ownerRepo := some orStr,
              leftRef := some lsha, rightRef := some rsha } initSt).1
          = Except.error
              ⟨"Failed to fetch compare refs: Failed to determine merge base for compare refs",
                ExitCode.gitError⟩)
      ∧ (∀ mb, mbOf (env 5) = some mb →
          (resolveGitHubCompareRefs env tempNS
            { type := .githubCompareUrl, left := "", right := "", ownerRepo := some orStr,
              leftRef := some lsha, rightRef := some rsha } initSt).1
          = Except.ok ⟨mb, tempNS ++ "/right/" ++ rsha,
              some [tempNS ++ "/left/" ++ lsha, tempNS ++ "/right/" ++ rsha]⟩)) := by
  refine ⟨?_, ?_, ?_⟩
  · intro env leftUrl rightUrl lSpec rSpec lRef rRef st s1 s2 hmb h1 h2
    have h2' : env (st.time + 1 + 1) = GitReply.ok s2 := by
      rw [Nat.add_assoc]; exact h2
    have hidx : st.time + 1 + 1 + 1 = st.time + 3 := by omega
    refine ⟨?_, ?_, ?_⟩
    · cases hm : mbOf (env (st.time + 3)) with
      | none =>
        have hm' : mbOf (env (st.time + 1 + 1 + 1)) = none := by rw [hidx]; exact hm
        simp only [compareMergeBasePhase, getMergeBaseStep_eq, hmb, gitFetchFromUrl,
          stepCall, h1, h2', hm', List.append_assoc, List.cons_append, List.nil_append]
      | some mb =>
        have hm' : mbOf (env (st.time + 1 + 1 + 1)) = some mb := by rw [hidx]; exact hm
        simp only [compareMergeBasePhase, getMergeBaseStep_eq, hmb, gitFetchFromUrl,
          stepCall, h1, h2', hm', List.append_assoc, List.cons_append, List.nil_append]
    · intro mb hm
      have hm' : mbOf (env (st.time + 1 + 1 + 1)) = some mb := by rw [hidx]; exact hm
      simp only [compareMergeBasePhase, getMergeBaseStep_eq, hmb, gitFetchFromUrl,
        stepCall, h1, h2', hm']
    · intro hm
      have hm' : mbOf (env (st.time + 1 + 1 + 1)) = none := by rw [hidx]; exact hm
      simp only [compareMergeBasePhase, getMergeBaseStep_eq, hmb, gitFetchFromUrl,
        stepCall, h1, h2', hm']
  · intro env leftUrl rightUrl lSpec rSpec lRef rRef st mb hmb
    constructor
    · simp only [compareMergeBasePhase, getMergeBaseStep_eq, hmb]
    · simp only [compareMergeBasePhase, getMergeBaseStep_eq, hmb]
  · intro env tempNS orStr owner repo lsha rsha s0 s1 s3 s4 hsplit how hrep hor hl hr
      hlc hrc h0 h1 hmb2 h3 h4
    have h1' : env (0 + 1) = GitReply.ok s1 := by simpa using h1
    have hmb2' : mbOf (env (0 + 1 + 1)) = none := by simpa using hmb2
    have h3' : env (0 + 1 + 1 + 1) = GitReply.ok s3 := by simpa using h3
    have h4' : env (0 + 1 + 1 + 1 + 1) = GitReply.ok s4 := by simpa using h4
    have hidx : (0 : Nat) + 1 + 1 + 1 + 1 + 1 = 5 := by omega
    refine ⟨?_, ?_, ?_⟩
    · cases hm : mbOf (env 5) with
      | none =>
        have hm' : mbOf (env (0 + 1 + 1 + 1 + 1 + 1)) = none := by rw [hidx]; exact hm
        simp only [resolveGitHubCompareRefs, resolveGitHubCompareRefsTry, fetchRefC,
          buildRefspec, hlc, hrc, fetchRefGo, gitFetchFromUrl, stepCall,
          compareMergeBasePhase, getMergeBaseStep_eq, hsplit, how, hrep, hor, hl, hr,
          h0, h1', hmb2', h3', h4', hm', initSt, strFalsy, Option.getD, Option.isNone,
          List.getD, List.get?_cons_zero, List.get?_cons_succ, List.get?_nil,
          Bool.or_false, Bool.false_or, Bool.or_self, if_false, if_true,
          eq_self_iff_true, reduceCtorEq, List.append_assoc, List.cons_append,
          List.nil_append]
      | some mb =>
        have hm' : mbOf (env (0 + 1 + 1 + 1 + 1 + 1)) = some mb := by rw [hidx]; exact hm
        simp only [resolveGitHubCompareRefs, resolveGitHubCompareRefsTry, fetchRefC,
          buildRefspec, hlc, hrc, fetchRefGo, gitFetchFromUrl, stepCall,
          compareMergeBasePhase, getMergeBaseStep_eq, hsplit, how, hrep, hor, hl, hr,
          h0, h1', hmb2', h3', h4', hm', initSt, strFalsy, Option.getD, Option.isNone,
          List.getD, List.get?_cons_zero, List.get?_cons_succ, List.get?_nil,
          Bool.or_false, Bool.false_or, Bool.or_self, if_false, if_true,
          eq_self_iff_true, reduceCtorEq, List.append_assoc, List.cons_append,
          List.nil_append]
    · intro hm
      have hm' : mbOf (env (0 + 1 + 1 + 1 + 1 + 1)) = none := by rw [hidx]; exact hm
      simp only [resolveGitHubCompareRefs, resolveGitHubCompareRefsTry, fetchRefC,
        buildRefspec, hlc, hrc, fetchRefGo, gitFetchFromUrl, stepCall,
        compareMergeBasePhase, getMergeBaseStep_eq, hsplit, how, hrep, hor, hl, hr,
        h0, h1', hmb2', h3', h4', hm', initSt, strFalsy, Option.getD, Option.isNone,
        List.getD, List.get?_cons_zero, List.get?_cons_succ, List.get?_nil,
        Bool.or_false, Bool.false_or, Bool.or_self, if_false, if_true,
        eq_self_iff_true, reduceCtorEq, List.append_assoc, List.cons_append,
        List.nil_append, JsError.message]
      rfl
    · intro mb hm
      have hm' : mbOf (env (0 + 1 + 1 + 1 + 1 + 1)) = some mb := by rw [hidx]; exact hm
      simp only [resolveGitHubCompareRefs, resolveGitHubCompareRefsTry, fetchRefC,
        buildRefspec, hlc, hrc, fetchRefGo, gitFetchFromUrl, stepCall,
        compareMergeBasePhase, getMergeBaseStep_eq, hsplit, how, hrep, hor, hl, hr,
        h0, h1', hmb2', h3', h4', hm', initSt, strFalsy, Option.getD, Option.isNone,
        List.getD, List.get?_cons_zero, List.get?_cons_succ, List.get?_nil,
        Bool.or_false, Bool.false_or, Bool.or_self, if_false, if_true,
        eq_self_iff_true, reduceCtorEq, List.append_assoc, List.cons_append,
        List.nil_append]

/-- Witness for C2: an oracle failing merge-base once and succeeding after the
depth-200 re-fetch makes the compare resolver succeed with the retried base. -/
theorem compare_mergebase_single_deepening_witness :
    (resolveGitHubCompareRefs
        (fun n => if n == 2 then GitReply.err "shallow"
          else if n == 5 then GitReply.ok "abc123\n" else GitReply.ok "") "T"
        { type := .githubCompareUrl, left := "", right := "", ownerRepo := some "o/r",
          leftRef := some "deadbeef", rightRef := some "cafebabe" } initSt).1
      = Except.ok ⟨"abc123", "T" ++ "/right/" ++ "cafebabe",
          some ["T" ++ "/left/" ++ "deadbeef", "T" ++ "/right/" ++ "cafebabe"]⟩ :=
  (compare_mergebase_single_deepening.2.2
    (fun n => if n == 2 then GitReply.err "shallow"
      else if n == 5 then GitReply.ok "abc123\n" else GitReply.ok "")
    "T" "o/r" "o" "r" "deadbeef" "cafebabe" "" "" "" ""
    rfl rfl rfl rfl rfl rfl (by decide) (by decide) rfl rfl rfl rfl rfl).2.2
    "abc123" (by decide)

end Diffx
